import Mathlib

/-!
Verification development for the Nubox RPA report-extraction service
(src/services/components/report_extractor.py).

The Python code is shallowly embedded as executable Lean definitions:

* file bytes are modelled as characters of a String (all markers and
  signatures the code inspects are byte-sized, and utf-8 decoding with
  errors ignored is the identity on them);
* the pandas DataFrame is modelled by the DataFrame structure below
  (ordered column names plus rows of typed cells);
* external collaborators (Selenium browser, BeautifulSoup, the pandas
  binary-Excel engines, the filesystem) are modelled as oracle fields of
  environment structures: each field records the outcome the collaborator
  would have produced, and the embedded control flow around those
  outcomes follows the Python source line by line;
* a Python exception caught by a try/except block is modelled by a
  boolean or Option field of the oracle saying that the guarded region
  raised; the except-handler code is embedded as written.

Definitions keep the source function names.
-/

/-! ### Python string primitives used by the source -/

/-- Character-level model of Python substring containment (the in
operator on str): true when needle occurs contiguously in hay. -/
def listContainsSeq (needle : List Char) : List Char → Bool
  | [] => needle.isEmpty
  | c :: cs => needle.isPrefixOf (c :: cs) || listContainsSeq needle cs

/-- needle in hay, on Strings. -/
def strContains (hay needle : String) : Bool :=
  listContainsSeq needle.toList hay.toList

/-- First n characters of a string (models reading the first n bytes of
a file; the markers inspected are one byte per character). -/
def strTake (n : Nat) (s : String) : String :=
  (s.toList.take n).asString

/-- Python str.lower (ASCII, which is all the source compares). -/
def pyLower (s : String) : String :=
  (s.toList.map Char.toLower).asString

/-- Python str.upper (ASCII). -/
def pyUpper (s : String) : String :=
  (s.toList.map Char.toUpper).asString

/-- Python str.startswith. -/
def pyStartsWith (p s : String) : Bool :=
  p.toList.isPrefixOf s.toList

/-- Whitespace class of Python's str.strip and the regex class \s. -/
def isPySpace (c : Char) : Bool :=
  c = ' ' || c = '\t' || c = '\n' || c = '\r' || c = '\x0b' || c = '\x0c'

/-- Python str.strip(). -/
def pyTrim (s : String) : String :=
  ((s.toList.dropWhile isPySpace).reverse.dropWhile isPySpace).reverse.asString

/-- Python str.replace(a, b) for single characters a, b. -/
def pyReplaceChar (a b : Char) (s : String) : String :=
  (s.toList.map (fun c => if c = a then b else c)).asString

/-- Python: c in s for a single character. -/
def pyContainsChar (c : Char) (s : String) : Bool :=
  s.toList.contains c

/-- Python s.split(sep)[0] for a single-character sep: the text before
the first occurrence of sep (the whole string when sep is absent). -/
def pySplitHeadChar (sep : Char) (s : String) : String :=
  (s.toList.takeWhile (fun c => c ≠ sep)).asString

/-- Collapse runs of two or more spaces to one (helper for normSpaces). -/
def squeezeSpaces : List Char → List Char
  | [] => []
  | [c] => [c]
  | a :: b :: rest =>
    if a = ' ' && b = ' ' then squeezeSpaces (b :: rest)
    else a :: squeezeSpaces (b :: rest)

/-- Python re.sub(r'\s+', ' ', text): every maximal whitespace run
becomes a single space. -/
def normSpaces (s : String) : String :=
  (squeezeSpaces (s.toList.map (fun c => if isPySpace c then ' ' else c))).asString

/-- Python ' '.join(row). -/
def joinSpace : List String → String
  | [] => ""
  | [s] => s
  | s :: rest => s ++ " " ++ joinSpace rest

/-! ### Data model: cells and DataFrames -/

/-- A typed cell of the tabular dataset: raw text, a decimal (pandas
numeric with ZZ/ZZ semantics modelled by the rationals), a parsed
calendar date, or the null produced by a coerced parse failure
(pandas NaN/NaT). -/
inductive Cell where
  | text (s : String)
  | num (q : ℚ)
  | date (d m y : Nat)
  | null
deriving DecidableEq, Repr

/-- Model of a pandas DataFrame: ordered column names and rows of
cells. -/
structure DataFrame where
  columns : List String
  rows : List (List Cell)
deriving DecidableEq, Repr

/-- pd.DataFrame(): no columns, no rows. -/
def DataFrame.empty : DataFrame := { columns := [], rows := [] }

/-- pandas df.empty: true when either axis has length zero. -/
def DataFrame.isEmpty (df : DataFrame) : Bool :=
  df.rows.isEmpty || df.columns.isEmpty

/-- pd.DataFrame(data, columns=cols) as used at report_extractor.py:846:
the data rows there all have one cell per header (they were cut to the
header width), and pandas raises ValueError - caught by the surrounding
except - exactly when the column-name count disagrees with the data
width; the guard below reproduces that. -/
def mkDataFrame (cols : List String) (data : List (List String)) : Option DataFrame :=
  if data.all (fun r => r.length = cols.length) then
    some { columns := cols, rows := data.map (fun r => r.map Cell.text) }
  else none

/-! ### Numeric and date coercion (pandas to_numeric / to_datetime) -/

/-- Digits of a numeral to its value. -/
def digitsVal (cs : List Char) : Nat :=
  cs.foldl (fun acc c => acc * 10 + (c.toNat - 48)) 0

/-- Unsigned decimal grammar accepted by Python float()/pd.to_numeric on
the post-strip alphabet (digits, '.', ',', '-'): digits with at most one
point and at least one digit overall; a comma or a stray sign anywhere
is a parse failure. -/
def parseUnsignedDecimal (cs : List Char) : Option ℚ :=
  let intPart := cs.takeWhile Char.isDigit
  let rest := cs.drop intPart.length
  match rest with
  | [] => if intPart.isEmpty then none else some (digitsVal intPart)
  | '.' :: frac =>
    if frac.all Char.isDigit && !(intPart.isEmpty && frac.isEmpty) then
      some ((digitsVal intPart : ℚ) + (digitsVal frac : ℚ) / ((10 : ℚ) ^ frac.length))
    else none
  | _ => none

/-- pd.to_numeric(s, errors='coerce') on the strings reaching it in
_clean_accounting_data: none models NaN. -/
def parseDecimal (s : String) : Option ℚ :=
  match s.toList with
  | '-' :: rest => (parseUnsignedDecimal rest).map (fun q => -q)
  | '+' :: rest => parseUnsignedDecimal rest
  | cs => parseUnsignedDecimal cs

/-- Days per month with the Gregorian leap rule (datetime validity). -/
def daysInMonth (m y : Nat) : Nat :=
  if m = 2 then (if (y % 4 = 0 && y % 100 ≠ 0) || y % 400 = 0 then 29 else 28)
  else if m = 4 || m = 6 || m = 9 || m = 11 then 30 else 31

/-- Split a character list on a separator (Python str.split). -/
def splitOnChar (sep : Char) : List Char → List (List Char)
  | [] => [[]]
  | c :: cs =>
    let r := splitOnChar sep cs
    if c = sep then [] :: r
    else
      match r with
      | [] => [[c]]
      | h :: t => (c :: h) :: t

/-- pd.to_datetime(s, format='%d/%m/%Y', errors='coerce'): a strict
whole-string day/month/year parse, none modelling NaT. strptime lets
day and month be one or two digits and the year up to four. -/
def parseDateDMY (s : String) : Option (Nat × Nat × Nat) :=
  match splitOnChar '/' s.toList with
  | [d, m, y] =>
    if d.all Char.isDigit && m.all Char.isDigit && y.all Char.isDigit &&
       1 ≤ d.length && d.length ≤ 2 && 1 ≤ m.length && m.length ≤ 2 &&
       1 ≤ y.length && y.length ≤ 4 then
      let dv := digitsVal d
      let mv := digitsVal m
      let yv := digitsVal y
      if 1 ≤ mv && mv ≤ 12 && 1 ≤ dv && dv ≤ daysInMonth mv yv && 1 ≤ yv then
        some (dv, mv, yv)
      else none
    else none
  | _ => none

/-- Python str(cell) as applied by .astype(str) in
_clean_accounting_data; on that path every cell is still raw text, so
only the text branch is ever exercised. -/
def cellStr : Cell → String
  | Cell.text s => s
  | Cell.num _ => ""
  | Cell.date _ _ _ => ""
  | Cell.null => "nan"

/-- The regex replace at report_extractor.py:918: drop every character
that is not a digit, point, comma or minus. -/
def stripMoneyChars (s : String) : String :=
  (s.toList.filter (fun c => c.isDigit || c = '.' || c = ',' || c = '-')).asString

/-- One monetary cell after strip, to_numeric(errors='coerce') and
fillna(0): always a decimal, zero on parse failure. -/
def cleanMoneyCell (c : Cell) : Cell :=
  Cell.num ((parseDecimal (stripMoneyChars (cellStr c))).getD 0)

/-- One FECHA cell after to_datetime(errors='coerce'): a date on
success, null (NaT) on failure. -/
def cleanDateCell (c : Cell) : Cell :=
  match parseDateDMY (cellStr c) with
  | some (d, m, y) => Cell.date d m y
  | none => Cell.null

/-- Per-column transform of _clean_accounting_data: the three monetary
columns are coerced to numbers, FECHA to dates, everything else is kept.
The source assigns column by column; with the distinct accounting
column names this equals transforming each position by its own column
name. -/
def cleanCellAt (colName : String) (c : Cell) : Cell :=
  if colName = "DEBE" || colName = "HABER" || colName = "SALDO" then cleanMoneyCell c
  else if colName = "FECHA" then cleanDateCell c
  else c

/-- pandas na test used by dropna: only the coerced nulls count. -/
def isNullCell : Cell → Bool
  | Cell.null => true
  | _ => false

/-- Keep the elements of l sitting at the given positions. -/
def selectIdxs (l : List α) (idxs : List Nat) : List α :=
  idxs.filterMap (fun i => l.get? i)

/-- report_extractor.py:899-942 _clean_accounting_data: coerce monetary
and date columns, then dropna(how='all') on rows, then
dropna(axis=1, how='all') on columns. The except arm (return the frame
unchanged) is dead: every step here is total. -/
def _clean_accounting_data (df : DataFrame) : DataFrame :=
  let rows1 := df.rows.map (fun r => (df.columns.zip r).map (fun p => cleanCellAt p.1 p.2))
  let rows2 := rows1.filter (fun r => !(r.all isNullCell))
  let keep := (List.range df.columns.length).filter
    (fun i => !(rows2.all (fun r => isNullCell (r.getD i Cell.null))))
  { columns := selectIdxs df.columns keep
    rows := rows2.map (fun r => selectIdxs r keep) }

/-! ### HTML-Excel table extraction -/

/-- Date gate of _is_valid_data_row: the regex
r'\d{1,2}/\d{1,2}/\d{4}' matched with re.match, that is anchored at the
start of the cell only. One helper step: one or two digits followed by
a slash. -/
def twoDigitSlash : List Char → Option (List Char)
  | a :: b :: rest =>
    if a.isDigit && b = '/' then some rest
    else if a.isDigit && b.isDigit then
      match rest with
      | '/' :: rest2 => some rest2
      | _ => none
    else none
  | _ => none

/-- re.match(r'\d{1,2}/\d{1,2}/\d{4}', s) as a Bool. -/
def dateStartMatch (s : String) : Bool :=
  match twoDigitSlash s.toList with
  | none => false
  | some r1 =>
    match twoDigitSlash r1 with
    | none => false
    | some r2 => 4 ≤ r2.length && (r2.take 4).all Char.isDigit

/-- re.match(r'\d{1,8}-[\dk]', s, re.IGNORECASE): one to eight digits,
a dash, then a digit or k/K, anchored at the start. -/
def rutStartMatch (s : String) : Bool :=
  let cs := s.toList
  let ds := cs.takeWhile Char.isDigit
  let rest := cs.drop ds.length
  1 ≤ ds.length && ds.length ≤ 8 &&
    (match rest with
     | '-' :: d :: _ => d.isDigit || d = 'k' || d = 'K'
     | _ => false)

/-- report_extractor.py:866-897 _is_valid_data_row. -/
def _is_valid_data_row (row_data : List String) : Bool :=
  if row_data.isEmpty || row_data.length < 3 then false
  else if dateStartMatch (row_data.headD "") then true
  else if 2 < row_data.length && (row_data.getD 2 "") ≠ "" &&
          rutStartMatch (row_data.getD 2 "") then true
  else if listContainsSeq "ACUMULACION ANTERIOR".toList (pyUpper (joinSpace row_data)).toList ||
          listContainsSeq "TOTAL".toList (pyUpper (joinSpace row_data)).toList then true
  else false

/-- The accounting header vocabulary of report_extractor.py:814. -/
def accountingHeaderWords : List String :=
  ["FECHA", "COMPROBANTE", "GLOSA", "DEBE", "HABER", "SALDO"]

/-- Header detection at report_extractor.py:810-814: more than five
cells and at least one cell equal to a known accounting header. -/
def isHeaderRow (cells : List String) : Bool :=
  5 < cells.length && accountingHeaderWords.any (fun h => cells.contains h)

/-- Gate at report_extractor.py:830 plus _is_valid_data_row: whether a
post-header row (already whitespace-normalised) is kept as data. -/
def rowKept (ct : List String) : Bool :=
  (ct.headD "") ≠ "" && !(pyStartsWith "TOTAL" (ct.headD "")) && _is_valid_data_row ct

/-- The row scan of _parse_html_excel (report_extractor.py:806-833):
before the header row only header detection happens; after it, rows at
least as wide as the header are normalised, gated and cut to the header
width. -/
def scanRows : List (List String) → Bool → List String → List (List String) →
    List String × List (List String)
  | [], _, headers, data => (headers, data)
  | cells :: rest, headerFound, headers, data =>
    if !headerFound then
      if isHeaderRow cells then scanRows rest true cells data
      else scanRows rest false headers data
    else if headers.length ≤ cells.length then
      let ct := cells.map normSpaces
      if rowKept ct then scanRows rest true headers (data ++ [ct.take headers.length])
      else scanRows rest true headers data
    else scanRows rest true headers data

/-- report_extractor.py:756-864 _parse_html_excel. The BeautifulSoup
call is the modelling boundary: the argument is the bordered table the
soup lookup found (none when soup.find returned nothing), given as rows
of get_text(strip=True) cell texts. The company-info rows feed only
df.attrs metadata and are not modelled. The final argument pair mirrors
the source's (DataFrame, file_path) returns, including the
'Error de parsing' arm for the pandas ValueError. -/
def _parse_html_excel (tbl : Option (List (List String))) (file_path : String) :
    DataFrame × Option String :=
  match tbl with
  | none => (DataFrame.empty, some file_path)
  | some rows =>
    let hd := scanRows rows false [] []
    let headers := hd.1
    let data_rows := hd.2
    if data_rows.isEmpty then (DataFrame.empty, some file_path)
    else
      let headers2 := if 10 < headers.length then headers.take 10 else headers
      match mkDataFrame headers2 data_rows with
      | some df => (_clean_accounting_data df, some file_path)
      | none => (DataFrame.empty, some ("Error de parsing: " ++ file_path))

/-! ### Artifact validation and format detection -/

/-- report_extractor.py:543-548. -/
def nubox_html_excel_indicators : List String :=
  ["xmlns:x=\"urn:schemas-microsoft-com:office:excel\"",
   "<x:ExcelWorkbook>", "<x:ExcelWorksheets>", "LIBRO MAYOR DESDE"]

/-- report_extractor.py:558-562 (bytes as characters). -/
def excel_signatures : List String :=
  ["\xd0\xcf\x11\xe0\xa1\xb1\x1a\xe1", "PK\x03\x04", "\x09\x08\x06\x00\x00\x00\x10\x00"]

/-- report_extractor.py:572. -/
def html_indicators : List String :=
  ["<html", "<!doctype", "<head>", "<body>", "<title>"]

/-- report_extractor.py:606-609. -/
def error_indicators : List String :=
  ["error", "no se pudo", "problema", "timeout", "session",
   "expired", "invalid", "access denied", "forbidden", "unauthorized"]

/-- report_extractor.py:515-639 _validate_excel_file on the file's
content. Branch order as in the source: vendor HTML-Excel markers in
the 512-byte header window accept; a binary Excel signature prefix
accepts; generic HTML markers (vendor markers absent) reject; error
vocabulary rejects; otherwise a CSV separator in the window accepts,
else reject. The size check only logs and the except arm needs a
filesystem error, so neither appears. -/
def _validate_excel_file (content : String) : Bool :=
  let header_text := strTake 512 content
  if nubox_html_excel_indicators.any (fun i => strContains header_text i) then true
  else if excel_signatures.any (fun sig => pyStartsWith sig header_text) then true
  else if html_indicators.any (fun i => strContains (pyLower header_text) i) then false
  else if error_indicators.any (fun i => strContains (pyLower header_text) i) then false
  else if [",", ";", "\t"].any (fun sep => strContains header_text sep) then true
  else false

/-- report_extractor.py:743-748. -/
def html_excel_indicators : List String :=
  ["xmlns:x=\"urn:schemas-microsoft-com:office:excel\"",
   "<x:ExcelWorkbook>", "<x:ExcelWorksheets>", "<table border=\"1\">"]

/-- report_extractor.py:728-754 _is_html_excel_format: office markers in
the first 500 characters. -/
def _is_html_excel_format (content : String) : Bool :=
  let c := strTake 500 content
  html_excel_indicators.any (fun i => strContains c i)

/-! ### Downloaded-artifact discovery and reading -/

/-- One candidate file in the downloads folder. The last three fields
are the modelling boundary to external libraries: content is the file's
text (bytes as characters), htmlTable is what BeautifulSoup finds as
the bordered table (used only when the HTML-Excel path runs), and
pandasRead is the first non-empty DataFrame any of the pandas
engine/sheet/CSV strategies of _read_excel_file would return, none when
they all fail or all come back empty. -/
structure DLFile where
  name : String
  ctime : Int
  content : String
  htmlTable : Option (List (List String))
  pandasRead : Option DataFrame
deriving DecidableEq, Repr

/-- glob(downloads + "/*.xls*"): any name containing ".xls". -/
def matchesXlsGlob (name : String) : Bool :=
  strContains name ".xls"

/-- report_extractor.py:641-726 _read_excel_file. The HTML-Excel branch
is embedded in full; the chain of pandas engines, per-sheet reads and
CSV fallbacks is folded into the pandasRead oracle (the source returns
the first non-empty frame any of them yields, else the
'Error de lectura' pair). -/
def _read_excel_file (f : DLFile) : DataFrame × Option String :=
  if _is_html_excel_format f.content then _parse_html_excel f.htmlTable f.name
  else
    match f.pandasRead with
    | some df =>
      if !df.isEmpty then (df, some f.name)
      else (DataFrame.empty, some ("Error de lectura: " ++ f.name))
    | none => (DataFrame.empty, some ("Error de lectura: " ++ f.name))

/-- Environment of one extract_report call: the downloads-folder glob
listing, the clock value time.time() returns, and the two
exception oracles for the try/except blocks of extract_report and of
_find_and_process_downloaded_file. -/
structure Env where
  downloads : List DLFile
  now : Int
  raiseExtract : Bool
  raiseFind : Bool
deriving DecidableEq, Repr

/-- Stable insertion of a file into a ctime-descending list (helper to
model list.sort(key=lambda x: x[1], reverse=True)). -/
def insertDesc (f : DLFile) : List DLFile → List DLFile
  | [] => [f]
  | g :: gs => if g.ctime < f.ctime then f :: g :: gs else g :: insertDesc f gs

/-- Sort files by creation time, most recent first. -/
def sortDesc : List DLFile → List DLFile
  | [] => []
  | f :: fs => insertDesc f (sortDesc fs)

/-- The recent-file filter of report_extractor.py:477-487: glob matches
whose creation time is within the last 120 seconds. -/
def recentFiles (env : Env) : List DLFile :=
  (env.downloads.filter (fun f => matchesXlsGlob f.name)).filter
    (fun f => env.now - f.ctime < 120)

/-- report_extractor.py:465-513 _find_and_process_downloaded_file. The
is_multiple_accounts flag only changes a log line, so both branches of
the source call _read_excel_file identically. -/
def _find_and_process_downloaded_file (env : Env) : DataFrame × Option String :=
  if env.raiseFind then (DataFrame.empty, none)
  else
    match sortDesc (recentFiles env) with
    | [] => (DataFrame.empty, some "Descarga no encontrada")
    | latest :: _ =>
      if !(_validate_excel_file latest.content) then
        (DataFrame.empty, some ("Archivo inválido: " ++ latest.name))
      else _read_excel_file latest

/-- report_extractor.py:34-66 extract_report: screenshot, error-message
scan and the 10-second sleep are effect-free for the result; any
exception in them (or below) is caught and turned into
(empty frame, None). -/
def extract_report (env : Env) (is_multiple_accounts : Bool) : DataFrame × Option String :=
  if env.raiseExtract then (DataFrame.empty, none)
  else _find_and_process_downloaded_file env

/-! ### Batch orchestrator over company-account combinations -/

/-- One per-combination result record as built by
extract_multiple_reports_by_company_and_account (the success dict of
report_extractor.py:299-309 and _create_failed_combination_result). -/
structure ExtractionResult where
  success : Bool
  error : Option String
  data : DataFrame
  file_path : Option String
  company : String
  account : String
  account_code : String
  rows_count : Nat
  columns_count : Nat
deriving DecidableEq, Repr

/-- The _summary dict of report_extractor.py:384-391 (error only set by
the general-exception arm at 398-408). -/
structure Summary where
  total_combinations : Nat
  total_companies : Nat
  total_accounts : Nat
  successful_extractions : Nat
  failed_extractions : Nat
  success_rate : ℚ
  error : Option String
deriving DecidableEq, Repr

/-- A value of the results dict: per-combination record or the summary. -/
inductive Entry where
  | result (r : ExtractionResult)
  | summary (s : Summary)
deriving DecidableEq, Repr

/-- The results dict, in insertion order. -/
abbrev Results := List (String × Entry)

/-- Python dict assignment d[k] = v: replace in place if the key
exists, else append. -/
def dictInsert (d : List (String × α)) (k : String) (v : α) : List (String × α) :=
  match d with
  | [] => [(k, v)]
  | (k2, v2) :: rest =>
    if k2 = k then (k, v) :: rest else (k2, v2) :: dictInsert rest k v

/-- combination_key = f"{company} - {account}". -/
def comboKey (company account : String) : String :=
  company ++ " - " ++ account

/-- company.split(',')[0].strip() if ',' in company else
company.split(' ')[0] (report_extractor.py:263). -/
def companyCode (company : String) : String :=
  if pyContainsChar ',' company then pyTrim (pySplitHeadChar ',' company)
  else pySplitHeadChar ' ' company

/-- account.split(' ')[0] if ' ' in account else account
(report_extractor.py:264); both branches are the text before the first
space. -/
def accountCode (account : String) : String :=
  pySplitHeadChar ' ' account

/-- f"{company_code}_{account_code}".replace('-', '_').replace('/', '_')
(report_extractor.py:265). -/
def safeCombinationCode (company account : String) : String :=
  pyReplaceChar '/' '_' (pyReplaceChar '-' '_' (companyCode company ++ "_" ++ accountCode account))

/-- _create_failed_combination_result (report_extractor.py:967-990). -/
def _create_failed_combination_result (error_message company account combination_code : String) :
    ExtractionResult :=
  { success := false, error := some error_message, data := DataFrame.empty,
    file_path := none, company := company, account := account,
    account_code := combination_code, rows_count := 0, columns_count := 0 }

/-- Python truthiness test of report_extractor.py:296:
file_path and file_path != "Descarga no encontrada". -/
def filePathCounts : Option String → Bool
  | none => false
  | some s => s ≠ "" && s ≠ "Descarga no encontrada"

/-- The success test at report_extractor.py:296: data extracted or a
download detected. -/
def extractionSucceeded (df : DataFrame) (fp : Option String) : Bool :=
  !df.isEmpty || filePathCounts fp

/-- The success dict of report_extractor.py:299-309. -/
def successCombinationResult (df : DataFrame) (fp : Option String)
    (company account code : String) : ExtractionResult :=
  { success := true, error := none, data := df, file_path := fp,
    company := company, account := account, account_code := code,
    rows_count := if df.isEmpty then 0 else df.rows.length,
    columns_count := if df.isEmpty then 0 else df.columns.length }

/-- Recording of one extraction outcome (report_extractor.py:296-318):
a success record when the test passes, else the generic no-data
failure. -/
def recordCombo (df : DataFrame) (fp : Option String)
    (company account code : String) : ExtractionResult :=
  if extractionSucceeded df fp then successCombinationResult df fp company account code
  else _create_failed_combination_result
    "No se extrajeron datos ni se detectó descarga" company account code

/-- Python range(start, stop): the naturals from start (inclusive) to
stop (exclusive), empty when stop ≤ start. -/
def pyRange (start stop : Nat) : List Nat :=
  (List.range stop).drop start

/-- The (company index, account index) pairs walked by
_mark_remaining_combinations_as_failed from the given start point. -/
def remainingPairs (m n startC startA : Nat) : List (Nat × Nat) :=
  (pyRange startC m).flatMap (fun cIdx =>
    (pyRange (if cIdx = startC then startA else 0) n).map (fun aIdx => (cIdx, aIdx)))

/-- report_extractor.py:992-1026 _mark_remaining_combinations_as_failed
(its failed-count return value is unused by the callers, which update
the counter themselves). -/
def _mark_remaining_combinations_as_failed (results : Results)
    (selected_companies selected_accounts : List String)
    (start_company_idx start_account_idx : Nat) (error_message : String) : Results :=
  (remainingPairs selected_companies.length selected_accounts.length
      start_company_idx start_account_idx).foldl
    (fun acc p =>
      let company := selected_companies.getD p.1 ""
      let account := selected_accounts.getD p.2 ""
      dictInsert acc (comboKey company account)
        (Entry.result (_create_failed_combination_result error_message company account
          (safeCombinationCode company account))))
    results

/-- Oracle for one combination of the batch loop, giving each external
outcome in the order the source consults them: the
set_parameters_programmatic boolean; the extract_report pair (that call
never raises, its own except returns the empty pair); raiseMsg when an
exception fires inside the per-combination try after configuration
(str(e) of line 354); the click_mayor_link and navigate_to_report
booleans of the navigation block; and recoveryOk = false when
navigate_to_report raises inside the except-recovery at line 365. -/
structure ComboBehavior where
  config : Bool
  report : DataFrame × Option String
  raiseMsg : Option String
  mayorOk : Bool
  navOk : Bool
  recoveryOk : Bool
deriving Repr

/-- Counters and dict threaded through the loops
(results / successful_extractions / failed_extractions /
combination_count). -/
structure LoopState where
  results : Results
  succ : Nat
  failed : Nat
  count : Nat
deriving Repr

/-- Loop control: fall through to the next combination or break out. -/
inductive LoopFlow where
  | cont
  | brk
deriving DecidableEq, Repr

/-- The body of the inner loop of
extract_multiple_reports_by_company_and_account
(report_extractor.py:249-374) for the combination at
(cIdx, aIdx): configuration failure records and continues; an exception
records, then tries navigate_to_report and on a second exception marks
the remaining combinations and breaks; otherwise the extraction outcome
is recorded and, when combinations remain, click_mayor_link then
navigate_to_report are tried, a double failure marking the remaining
combinations (with the roll-over of lines 339-345) and breaking. -/
def processCombo (b : ComboBehavior) (total : Nat)
    (companies accounts : List String) (cIdx aIdx : Nat) (st : LoopState) :
    LoopState × LoopFlow :=
  let company := companies.getD cIdx ""
  let account := accounts.getD aIdx ""
  let key := comboKey company account
  let code := safeCombinationCode company account
  let count2 := st.count + 1
  if !b.config then
    ({ st with
        results := dictInsert st.results key (Entry.result
          (_create_failed_combination_result "Error en configuración de parámetros"
            company account code))
        failed := st.failed + 1, count := count2 }, LoopFlow.cont)
  else
    match b.raiseMsg with
    | some msg =>
      let st1 : LoopState :=
        { st with
            results := dictInsert st.results key (Entry.result
              (_create_failed_combination_result msg company account code))
            failed := st.failed + 1, count := count2 }
      if count2 < total then
        if b.recoveryOk then (st1, LoopFlow.cont)
        else
          ({ st1 with
              results := _mark_remaining_combinations_as_failed st1.results companies accounts
                cIdx (aIdx + 1) "Proceso interrumpido por error de navegación"
              failed := st1.failed + (total - count2) }, LoopFlow.brk)
      else (st1, LoopFlow.cont)
    | none =>
      let df := b.report.1
      let fp := b.report.2
      let r := recordCombo df fp company account code
      let st1 : LoopState :=
        { st with
            results := dictInsert st.results key (Entry.result r)
            succ := st.succ + (if r.success then 1 else 0)
            failed := st.failed + (if r.success then 0 else 1)
            count := count2 }
      if count2 < total then
        if b.mayorOk then (st1, LoopFlow.cont)
        else if b.navOk then (st1, LoopFlow.cont)
        else
          let mc := if accounts.length ≤ aIdx + 1 then cIdx + 1 else cIdx
          let ma := if accounts.length ≤ aIdx + 1 then 0 else aIdx + 1
          ({ st1 with
              failed := st1.failed + (total - count2)
              results := _mark_remaining_combinations_as_failed st1.results companies accounts
                mc ma "Error de navegación - proceso interrumpido" }, LoopFlow.brk)
      else (st1, LoopFlow.cont)

/-- The inner account loop from a list of account indices; a break
propagates out. -/
def runAccountsFrom (behavior : Nat → Nat → ComboBehavior) (total : Nat)
    (companies accounts : List String) (cIdx : Nat) :
    List Nat → LoopState → LoopState × LoopFlow
  | [], st => (st, LoopFlow.cont)
  | aIdx :: rest, st =>
    match processCombo (behavior cIdx aIdx) total companies accounts cIdx aIdx st with
    | (st1, LoopFlow.cont) => runAccountsFrom behavior total companies accounts cIdx rest st1
    | (st1, LoopFlow.brk) => (st1, LoopFlow.brk)

/-- The outer company loop. After an inner break the source re-checks
combination_count + failed_extractions >= total_combinations at line
377, which is always true at that point, so breaking directly is
equivalent; after a normal inner exit the same check decides whether to
stop early. -/
def runCompanies (behavior : Nat → Nat → ComboBehavior) (total : Nat)
    (companies accounts : List String) :
    List Nat → LoopState → LoopState
  | [], st => st
  | cIdx :: rest, st =>
    match runAccountsFrom behavior total companies accounts cIdx
        (List.range accounts.length) st with
    | (st1, LoopFlow.brk) => st1
    | (st1, LoopFlow.cont) =>
      if total ≤ st1.count + st1.failed then st1
      else runCompanies behavior total companies accounts rest st1

/-- report_extractor.py:222-408
extract_multiple_reports_by_company_and_account. generalRaise models an
exception escaping everything but the per-combination try (outermost
except arm, lines 395-408, which returns a dict holding only the
summary); otherwise the cross product is walked and the summary is
stored into the same results dict under '_summary'. -/
def extract_multiple_reports_by_company_and_account
    (behavior : Nat → Nat → ComboBehavior) (generalRaise : Option String)
    (selected_companies selected_accounts : List String) : Results :=
  let total := selected_companies.length * selected_accounts.length
  match generalRaise with
  | some e =>
    [("_summary", Entry.summary
      { total_combinations := total, total_companies := selected_companies.length,
        total_accounts := selected_accounts.length, successful_extractions := 0,
        failed_extractions := total, success_rate := 0, error := some e })]
  | none =>
    let st := runCompanies behavior total selected_companies selected_accounts
      (List.range selected_companies.length)
      { results := [], succ := 0, failed := 0, count := 0 }
    dictInsert st.results "_summary" (Entry.summary
      { total_combinations := total, total_companies := selected_companies.length,
        total_accounts := selected_accounts.length, successful_extractions := st.succ,
        failed_extractions := st.failed,
        success_rate := if 0 < total then ((st.succ : ℚ) / (total : ℚ)) * 100 else 0,
        error := none })

/-! ### Derived notions and concrete instances used by the claims -/

/-- All (company index, account index) pairs of the cross product, in
the order the batch walks them. -/
def allPairs (m n : Nat) : List (Nat × Nat) :=
  (List.range m).flatMap (fun c => (List.range n).map (fun a => (c, a)))

/-- The results-dict key of the pair at the given indices. -/
def keyAt (companies accounts : List String) (p : Nat × Nat) : String :=
  comboKey (companies.getD p.1 "") (accounts.getD p.2 "")

/-- All combination keys of a batch, in processing order. -/
def allComboKeys (companies accounts : List String) : List String :=
  (allPairs companies.length accounts.length).map (keyAt companies accounts)

/-- A combination whose external interactions all go well: parameters
configure, nothing raises, the extraction outcome passes the success
test, and the Mayor link click brings the form back. -/
def cleanCombo (b : ComboBehavior) : Prop :=
  b.config = true ∧ b.raiseMsg = none ∧
    extractionSucceeded b.report.1 b.report.2 = true ∧ b.mayorOk = true

instance (b : ComboBehavior) : Decidable (cleanCombo b) := by
  unfold cleanCombo; infer_instance

/-- The dict entry a clean combination leaves behind. -/
def cleanEntry (behavior : Nat → Nat → ComboBehavior)
    (companies accounts : List String) (p : Nat × Nat) : String × Entry :=
  (keyAt companies accounts p, Entry.result
    (recordCombo (behavior p.1 p.2).report.1 (behavior p.1 p.2).report.2
      (companies.getD p.1 "") (accounts.getD p.2 "")
      (safeCombinationCode (companies.getD p.1 "") (accounts.getD p.2 ""))))

/-- Behavior where configuration fails for every combination (and no
navigation step is ever consulted, since a configuration failure goes
straight to the next combination). -/
def cfgFailBehavior : Nat → Nat → ComboBehavior := fun _ _ =>
  { config := false, report := (DataFrame.empty, none), raiseMsg := none,
    mayorOk := true, navOk := true, recoveryOk := true }

/-- Behavior where every combination succeeds with a detected
download. -/
def okBehavior : Nat → Nat → ComboBehavior := fun _ _ =>
  { config := true, report := (DataFrame.empty, some "/downloads/r.xls"),
    raiseMsg := none, mayorOk := true, navOk := true, recoveryOk := true }

/-- Behavior where the very first combination extracts fine but both
navigation recoveries after it fail. -/
def navFailBehavior : Nat → Nat → ComboBehavior := fun c a =>
  if c = 0 && a = 0 then
    { config := true, report := (DataFrame.empty, some "/downloads/r.xls"),
      raiseMsg := none, mayorOk := false, navOk := false, recoveryOk := true }
  else okBehavior c a

/-- A header row of the vendor's accounting table. -/
def demoHeaderRow : List String :=
  ["FECHA", "COMPROBANTE", "GLOSA", "RUT", "DEBE", "HABER"]

/-- A totals row whose first cell starts with TOTAL. -/
def demoTotalRow : List String :=
  ["TOTAL GENERAL", "x", "y", "z", "1", "2"]

/-- An ordinary movement row (empty DEBE cell, so its coerced value is
the zero fallback). -/
def demoDateRow : List String :=
  ["01/02/2023", "v-77", "glosa g", "", "", "250"]

/-- A small extracted table: a pre-header line, the header, a totals
row and a movement row. -/
def demoTable : List (List String) :=
  [["LIBRO MAYOR DESDE"], demoHeaderRow, demoTotalRow, demoDateRow]

/-- The movement row of demoTable after cleaning. -/
def demoCleanRow : List Cell :=
  [Cell.date 1 2 2023, Cell.text "v-77", Cell.text "glosa g", Cell.text "",
   Cell.num 0, Cell.num 250]

/-- A recently created download that is a generic HTML error page. -/
def demoInvalidFile : DLFile :=
  { name := "report.xls", ctime := 950, content := "<html><head>x</head></html>",
    htmlTable := none, pandasRead := none }

/-- A recently created download with a binary Excel signature that no
reading strategy manages to open. -/
def demoUnreadableFile : DLFile :=
  { name := "report2.xls", ctime := 900,
    content := "\xd0\xcf\x11\xe0\xa1\xb1\x1a\xe1rest",
    htmlTable := none, pandasRead := none }

/-- An older valid-looking download, outside the 120-second window. -/
def demoStaleFile : DLFile :=
  { name := "old.xls", ctime := 100,
    content := "\xd0\xcf\x11\xe0\xa1\xb1\x1a\xe1rest",
    htmlTable := none, pandasRead := some { columns := ["A"], rows := [[Cell.text "1"]] } }

/-- Environment with an empty downloads folder. -/
def demoEnvEmpty : Env :=
  { downloads := [], now := 1000, raiseExtract := false, raiseFind := false }

/-- Environment whose freshest download is the HTML error page (plus a
stale file that must not be picked). -/
def demoEnvInvalid : Env :=
  { downloads := [demoStaleFile, demoInvalidFile], now := 1000,
    raiseExtract := false, raiseFind := false }

/-- Environment whose freshest download cannot be read by any
strategy. -/
def demoEnvUnreadable : Env :=
  { downloads := [demoUnreadableFile], now := 1000,
    raiseExtract := false, raiseFind := false }

/-- Environment where the extract_report body itself raises. -/
def demoEnvRaise : Env :=
  { downloads := [], now := 1000, raiseExtract := true, raiseFind := false }

/-- A payload that starts with the ZIP signature of a modern Excel
container yet also contains a generic html tag and none of the vendor
markers. -/
def demoPkHtml : String :=
  "PK\x03\x04 <html><body>x</body></html>"

/-- A payload carrying only the vendor report-title fragment. -/
def demoTitleOnly : String :=
  "LIBRO MAYOR DESDE 01/01/2025"

/-- The raw frame built from the demo header and movement row, as
mkDataFrame produces it. -/
def demoDf : DataFrame :=
  { columns := demoHeaderRow, rows := [demoDateRow.map Cell.text] }

/-! ### Dictionary lemmas -/

theorem lookup_cons_self {α : Type} (k : String) (v : α) (rest : List (String × α)) :
    ((k, v) :: rest).lookup k = some v := by
  simp [List.lookup]

theorem lookup_cons_ne {α : Type} (k k2 : String) (v : α) (rest : List (String × α))
    (h : k ≠ k2) : ((k2, v) :: rest).lookup k = rest.lookup k := by
  simp only [List.lookup, beq_eq_false_iff_ne.mpr h]

theorem lookup_dictInsert {α : Type} (d : List (String × α)) (k : String) (v : α) :
    (dictInsert d k v).lookup k = some v := by
  induction d with
  | nil => simp [dictInsert, List.lookup]
  | cons p rest ih =>
    obtain ⟨k2, v2⟩ := p
    by_cases h : k2 = k
    · subst h; simp [dictInsert, List.lookup]
    · simp only [dictInsert, h, if_false]
      rw [lookup_cons_ne k k2 v2 _ (Ne.symm h)]
      exact ih

theorem lookup_dictInsert_ne {α : Type} (d : List (String × α)) (k k2 : String) (v : α)
    (h : k2 ≠ k) : (dictInsert d k v).lookup k2 = d.lookup k2 := by
  induction d with
  | nil =>
    simp only [dictInsert]
    rw [lookup_cons_ne k2 k v [] h]
  | cons p rest ih =>
    obtain ⟨k3, v3⟩ := p
    by_cases h3 : k3 = k
    · subst h3
      have hins : dictInsert ((k3, v3) :: rest) k3 v = (k3, v) :: rest := by
        simp [dictInsert]
      rw [hins, lookup_cons_ne k2 k3 v _ h, lookup_cons_ne k2 k3 v3 _ h]
    · simp only [dictInsert, h3, if_false]
      by_cases h23 : k2 = k3
      · subst h23; rw [lookup_cons_self, lookup_cons_self]
      · rw [lookup_cons_ne k2 k3 v3 _ h23, lookup_cons_ne k2 k3 v3 _ h23]
        exact ih

theorem dictInsert_eq_append {α : Type} (d : List (String × α)) (k : String) (v : α)
    (h : ∀ p ∈ d, p.1 ≠ k) : dictInsert d k v = d ++ [(k, v)] := by
  induction d with
  | nil => simp [dictInsert]
  | cons p rest ih =>
    obtain ⟨k2, v2⟩ := p
    have hk : k2 ≠ k := h (k2, v2) (by simp)
    simp only [dictInsert, hk, if_false, List.cons_append]
    rw [ih (fun q hq => h q (by simp [hq]))]

theorem lookup_append_of_fresh {α : Type} (d e : List (String × α)) (k : String)
    (h : ∀ p ∈ d, p.1 ≠ k) : (d ++ e).lookup k = e.lookup k := by
  induction d with
  | nil => simp
  | cons p rest ih =>
    obtain ⟨k2, v2⟩ := p
    have hk : k2 ≠ k := h (k2, v2) (by simp)
    simp only [List.cons_append]
    rw [lookup_cons_ne k k2 v2 _ (Ne.symm hk)]
    exact ih (fun q hq => h q (by simp [hq]))

theorem lookup_map_pairs {α β : Type} (bs : List β) (key : β → String) (val : β → α)
    (b0 : β) (hb : b0 ∈ bs) (hnodup : (bs.map key).Nodup) :
    (bs.map (fun b => (key b, val b))).lookup (key b0) = some (val b0) := by
  induction bs with
  | nil => cases hb
  | cons b rest ih =>
    rcases List.mem_cons.mp hb with h | h
    · subst h; simp [List.lookup]
    · have hne : key b ≠ key b0 := by
        intro he
        have : key b0 ∈ rest.map key := List.mem_map_of_mem key h
        rw [← he] at this
        exact (List.nodup_cons.mp hnodup).1 this
      simp only [List.map_cons]
      rw [lookup_cons_ne (key b0) (key b) (val b) _ (Ne.symm hne)]
      exact ih h (List.nodup_cons.mp hnodup).2

theorem foldl_dictInsert_eq_append {α β : Type} (bs : List β) (key : β → String)
    (val : β → α) (d : List (String × α))
    (hfresh : ∀ b ∈ bs, ∀ p ∈ d, p.1 ≠ key b)
    (hnodup : (bs.map key).Nodup) :
    bs.foldl (fun acc b => dictInsert acc (key b) (val b)) d =
      d ++ bs.map (fun b => (key b, val b)) := by
  induction bs generalizing d with
  | nil => simp
  | cons b rest ih =>
    rw [List.foldl_cons,
      dictInsert_eq_append d (key b) (val b) (fun p hp => hfresh b (by simp) p hp)]
    have hfresh2 : ∀ b2 ∈ rest, ∀ p ∈ d ++ [(key b, val b)], p.1 ≠ key b2 := by
      intro b2 hb2 p hp
      rcases List.mem_append.mp hp with h | h
      · exact hfresh b2 (by simp [hb2]) p h
      · have hp1 : p.1 = key b := by
          simp only [List.mem_singleton] at h
          rw [h]
        rw [hp1]
        intro he
        have : key b2 ∈ rest.map key := List.mem_map_of_mem key hb2
        rw [← he] at this
        exact (List.nodup_cons.mp hnodup).1 this
    rw [ih (d ++ [(key b, val b)]) hfresh2 (List.nodup_cons.mp hnodup).2]
    simp

/-! ### List and range lemmas -/

theorem flatMap_sublist_flatMap {γ δ : Type} {l1 l2 : List γ} (h : List.Sublist l1 l2)
    (f g : γ → List δ) (hgf : ∀ x, List.Sublist (g x) (f x)) :
    List.Sublist (l1.flatMap g) (l2.flatMap f) := by
  induction h with
  | slnil => simp
  | cons a h2 ih =>
    simp only [List.flatMap_cons]
    exact ih.trans (List.sublist_append_right _ _)
  | cons₂ a h2 ih =>
    simp only [List.flatMap_cons]
    exact (hgf a).append ih

theorem flatMap_congr_mem {γ δ : Type} {l : List γ} {f g : γ → List δ}
    (h : ∀ x ∈ l, f x = g x) : l.flatMap f = l.flatMap g := by
  induction l with
  | nil => simp
  | cons a rest ih =>
    simp only [List.flatMap_cons]
    rw [h a (by simp), ih (fun x hx => h x (by simp [hx]))]

theorem mem_drop_range {m s x : Nat} : x ∈ (List.range m).drop s ↔ s ≤ x ∧ x < m := by
  induction m with
  | zero => simp
  | succ m ih =>
    rw [List.range_succ, List.drop_append_eq_append_drop]
    simp only [List.mem_append, ih, List.length_range]
    by_cases hs : s ≤ m
    · have h1 : s - m = 0 ∨ (s - m = 1 ∧ s = m) ∨ 1 < s - m := by omega
      rcases Nat.lt_or_ge s m with hlt | hge
      · have : s - m = 0 := by omega
        rw [this]
        simp only [List.drop_zero, List.mem_singleton]
        omega
      · have hsm : s = m := by omega
        subst hsm
        have : s - s = 0 := by omega
        rw [this]
        simp only [List.drop_zero, List.mem_singleton]
        omega
    · have h2 : 1 ≤ s - m := by omega
      have : ([m].drop (s - m)) = [] := by
        apply List.drop_eq_nil_of_le
        simpa using h2
      rw [this]
      simp only [List.not_mem_nil, or_false]
      omega

theorem drop_range_cons {m s : Nat} (h : s < m) :
    (List.range m).drop s = s :: (List.range m).drop (s + 1) := by
  rw [List.drop_eq_getElem_cons (by simpa using h)]
  simp

theorem length_drop_range {m s : Nat} : ((List.range m).drop s).length = m - s := by
  simp

theorem mem_pyRange {s m x : Nat} : x ∈ pyRange s m ↔ s ≤ x ∧ x < m := by
  unfold pyRange
  exact mem_drop_range

theorem remainingPairs_sublist_allPairs (m n sC sA : Nat) :
    List.Sublist (remainingPairs m n sC sA) (allPairs m n) := by
  unfold remainingPairs allPairs pyRange
  apply flatMap_sublist_flatMap (List.drop_sublist _ _)
  intro c
  exact List.Sublist.map _ (List.drop_sublist _ _)

theorem mem_remainingPairs {m n sC sA c a : Nat} :
    (c, a) ∈ remainingPairs m n sC sA ↔
      c < m ∧ a < n ∧ (sC < c ∨ (c = sC ∧ sA ≤ a)) := by
  unfold remainingPairs
  simp only [List.mem_flatMap, List.mem_map, mem_pyRange, Prod.mk.injEq]
  constructor
  · rintro ⟨c2, ⟨hsc, hcm⟩, a2, ⟨hsa, han⟩, hc, ha⟩
    subst hc; subst ha
    by_cases h : c2 = sC
    · subst h; rw [if_pos rfl] at hsa; omega
    · rw [if_neg h] at hsa; omega
  · rintro ⟨hcm, han, h⟩
    refine ⟨c, ⟨?_, hcm⟩, a, ⟨?_, han⟩, rfl, rfl⟩
    · omega
    · by_cases hc : c = sC
      · subst hc; rw [if_pos rfl]; omega
      · rw [if_neg hc]; omega

theorem mem_allPairs {m n c a : Nat} : (c, a) ∈ allPairs m n ↔ c < m ∧ a < n := by
  unfold allPairs
  simp only [List.mem_flatMap, List.mem_map, List.mem_range, Prod.mk.injEq]
  constructor
  · rintro ⟨c2, hc2, a2, ha2, hc, ha⟩
    subst hc; subst ha; exact ⟨hc2, ha2⟩
  · rintro ⟨hc, ha⟩
    exact ⟨c, hc, a, ha, rfl, rfl⟩

theorem remainingPairs_after {m n c0 a0 : Nat} (hc0 : c0 < m) (ha0 : a0 < n) :
    remainingPairs m n (if n ≤ a0 + 1 then c0 + 1 else c0)
        (if n ≤ a0 + 1 then 0 else a0 + 1) =
      ((List.range n).drop (a0 + 1)).map (fun a => (c0, a)) ++
        ((List.range m).drop (c0 + 1)).flatMap
          (fun c => (List.range n).map (fun a => (c, a))) := by
  by_cases hn : n ≤ a0 + 1
  · have ha1 : a0 + 1 = n := by omega
    rw [if_pos hn, if_pos hn]
    unfold remainingPairs pyRange
    rw [ha1]
    rw [show (List.range n).drop n = [] from by
      apply List.drop_eq_nil_of_le; simp]
    simp only [List.map_nil, List.nil_append]
    apply flatMap_congr_mem
    intro c hc
    have : (if c = c0 + 1 then 0 else 0) = 0 := by simp
    rw [this, List.drop_zero]
  · rw [if_neg hn, if_neg hn]
    unfold remainingPairs pyRange
    rw [drop_range_cons hc0, List.flatMap_cons]
    congr 1
    · rw [if_pos rfl]
    · apply flatMap_congr_mem
      intro c hc
      rw [mem_drop_range] at hc
      rw [if_neg (by omega), List.drop_zero]

theorem allPairs_decomp {m n c0 a0 : Nat} (hc0 : c0 < m) (ha0 : a0 < n) :
    allPairs m n =
      (List.range c0).flatMap (fun c => (List.range n).map (fun a => (c, a))) ++
      ((List.range a0).map (fun a => (c0, a)) ++
        ((c0, a0) ::
          (((List.range n).drop (a0 + 1)).map (fun a => (c0, a)) ++
            ((List.range m).drop (c0 + 1)).flatMap
              (fun c => (List.range n).map (fun a => (c, a)))))) := by
  unfold allPairs
  have hm : List.range m = List.range c0 ++ (List.range m).drop c0 := by
    rw [show List.range c0 = (List.range m).take c0 from by
        rw [List.take_range]; congr 1; omega]
    rw [List.take_append_drop]
  have hn2 : List.range n = List.range a0 ++ (List.range n).drop a0 := by
    rw [show List.range a0 = (List.range n).take a0 from by
        rw [List.take_range]; congr 1; omega]
    rw [List.take_append_drop]
  have hinner : (List.range n).map (fun a => (c0, a)) =
      (List.range a0).map (fun a => (c0, a)) ++
        ((c0, a0) :: ((List.range n).drop (a0 + 1)).map (fun a => (c0, a))) := by
    conv_lhs => rw [hn2, List.map_append, drop_range_cons ha0, List.map_cons]
  conv_lhs => rw [hm, List.flatMap_append, drop_range_cons hc0, List.flatMap_cons, hinner]
  simp [List.append_assoc]

theorem allComboKeys_eq (companies accounts : List String) :
    allComboKeys companies accounts =
      (List.range companies.length).flatMap
        (fun c => (List.range accounts.length).map
          (fun a => keyAt companies accounts (c, a))) := by
  unfold allComboKeys allPairs
  rw [List.map_flatMap]
  apply flatMap_congr_mem
  intro c hc
  rw [List.map_map]
  rfl

/-! ### Orchestrator loop lemmas -/

theorem recordCombo_success_eq (df : DataFrame) (fp : Option String)
    (company account code : String) :
    (recordCombo df fp company account code).success = extractionSucceeded df fp := by
  unfold recordCombo
  by_cases h : extractionSucceeded df fp = true
  · rw [if_pos h, h]; rfl
  · rw [if_neg h]
    simp only [Bool.not_eq_true] at h
    rw [h]; rfl

theorem mark_eq_append (results : Results) (companies accounts : List String)
    (sC sA : Nat) (msg : String)
    (hfresh : ∀ p ∈ remainingPairs companies.length accounts.length sC sA,
      ∀ q ∈ results, q.1 ≠ keyAt companies accounts p)
    (hnodup : ((remainingPairs companies.length accounts.length sC sA).map
      (keyAt companies accounts)).Nodup) :
    _mark_remaining_combinations_as_failed results companies accounts sC sA msg =
      results ++ (remainingPairs companies.length accounts.length sC sA).map
        (fun p => (keyAt companies accounts p, Entry.result
          (_create_failed_combination_result msg (companies.getD p.1 "") (accounts.getD p.2 "")
            (safeCombinationCode (companies.getD p.1 "") (accounts.getD p.2 ""))))) := by
  unfold _mark_remaining_combinations_as_failed
  exact foldl_dictInsert_eq_append _ (keyAt companies accounts) _ results
    (fun b hb p hp => hfresh b hb p hp) hnodup

theorem processCombo_clean (b : ComboBehavior) (hb : cleanCombo b) (total : Nat)
    (companies accounts : List String) (cIdx aIdx : Nat) (st : LoopState) :
    processCombo b total companies accounts cIdx aIdx st =
      ({ results := dictInsert st.results (keyAt companies accounts (cIdx, aIdx))
          (Entry.result (recordCombo b.report.1 b.report.2 (companies.getD cIdx "")
            (accounts.getD aIdx "")
            (safeCombinationCode (companies.getD cIdx "") (accounts.getD aIdx ""))))
         succ := st.succ + 1, failed := st.failed, count := st.count + 1 },
       LoopFlow.cont) := by
  obtain ⟨h1, h2, h3, h4⟩ := hb
  have hr : (recordCombo b.report.1 b.report.2 (companies.getD cIdx "")
      (accounts.getD aIdx "")
      (safeCombinationCode (companies.getD cIdx "") (accounts.getD aIdx ""))).success = true := by
    rw [recordCombo_success_eq, h3]
  unfold processCombo
  rw [h1, h2]
  simp only [Bool.not_true, Bool.false_eq_true, if_false, hr, if_true, h4, keyAt,
    Nat.add_zero]
  rw [ite_self]

theorem runAccountsFrom_clean_append (behavior : Nat → Nat → ComboBehavior) (total : Nat)
    (companies accounts : List String) (cIdx : Nat) (aIdxs rest : List Nat)
    (st : LoopState)
    (hclean : ∀ a ∈ aIdxs, cleanCombo (behavior cIdx a))
    (hkeys : ((st.results.map Prod.fst) ++
      aIdxs.map (fun a => keyAt companies accounts (cIdx, a))).Nodup) :
    runAccountsFrom behavior total companies accounts cIdx (aIdxs ++ rest) st =
      runAccountsFrom behavior total companies accounts cIdx rest
        { results := st.results ++
            aIdxs.map (fun a => cleanEntry behavior companies accounts (cIdx, a))
          succ := st.succ + aIdxs.length, failed := st.failed,
          count := st.count + aIdxs.length } := by
  induction aIdxs generalizing st with
  | nil => simp
  | cons a as ih =>
    have hfresh : ∀ p ∈ st.results, p.1 ≠ keyAt companies accounts (cIdx, a) := by
      intro p hp he
      have h1 : keyAt companies accounts (cIdx, a) ∈ st.results.map Prod.fst := by
        rw [← he]; exact List.mem_map_of_mem _ hp
      exact (List.nodup_append.mp hkeys).2.2 h1 (by simp)
    have hstep : runAccountsFrom behavior total companies accounts cIdx
        (a :: (as ++ rest)) st =
        runAccountsFrom behavior total companies accounts cIdx (as ++ rest)
          { results := st.results ++ [cleanEntry behavior companies accounts (cIdx, a)],
            succ := st.succ + 1, failed := st.failed, count := st.count + 1 } := by
      simp only [runAccountsFrom,
        processCombo_clean (behavior cIdx a) (hclean a (by simp)) total]
      rw [dictInsert_eq_append st.results _ _ hfresh]
      rfl
    rw [List.cons_append, hstep]
    have hkeys2 : (((st.results ++
        [cleanEntry behavior companies accounts (cIdx, a)]).map Prod.fst) ++
        as.map (fun a2 => keyAt companies accounts (cIdx, a2))).Nodup := by
      simp only [List.map_append, cleanEntry, List.map_cons, List.map_nil]
      rw [List.append_assoc]
      simpa using hkeys
    rw [ih _ (fun a2 ha2 => hclean a2 (by simp [ha2])) hkeys2]
    congr 1
    simp [cleanEntry, List.append_assoc, Nat.add_comm, Nat.add_assoc, Nat.add_left_comm]

theorem runAccountsFrom_clean_all (behavior : Nat → Nat → ComboBehavior) (total : Nat)
    (companies accounts : List String) (cIdx : Nat) (st : LoopState)
    (hclean : ∀ a < accounts.length, cleanCombo (behavior cIdx a))
    (hkeys : ((st.results.map Prod.fst) ++
      (List.range accounts.length).map (fun a => keyAt companies accounts (cIdx, a))).Nodup) :
    runAccountsFrom behavior total companies accounts cIdx
        (List.range accounts.length) st =
      ({ results := st.results ++ (List.range accounts.length).map
           (fun a => cleanEntry behavior companies accounts (cIdx, a))
         succ := st.succ + accounts.length, failed := st.failed,
         count := st.count + accounts.length }, LoopFlow.cont) := by
  have h2 := runAccountsFrom_clean_append behavior total companies accounts cIdx
    (List.range accounts.length) [] st
    (fun a ha => hclean a (by simpa using ha)) hkeys
  simpa [runAccountsFrom] using h2

theorem flatMap_constant_nil {γ δ : Type} (l : List γ) :
    l.flatMap (fun _ => ([] : List δ)) = [] := by
  induction l with
  | nil => rfl
  | cons a rest ih => simp [ih]

theorem runCompanies_clean_full (behavior : Nat → Nat → ComboBehavior)
    (companies accounts : List String) (cIdxs : List Nat) (st : LoopState)
    (hclean : ∀ c ∈ cIdxs, ∀ a < accounts.length, cleanCombo (behavior c a))
    (hfail : st.failed = 0)
    (hcount : st.count + cIdxs.length * accounts.length =
      companies.length * accounts.length)
    (hkeys : ((st.results.map Prod.fst) ++
      cIdxs.flatMap (fun c => (List.range accounts.length).map
        (fun a => keyAt companies accounts (c, a)))).Nodup) :
    runCompanies behavior (companies.length * accounts.length) companies accounts cIdxs st =
      { results := st.results ++
          (cIdxs.flatMap (fun c => (List.range accounts.length).map (fun a => (c, a)))).map
            (cleanEntry behavior companies accounts)
        succ := st.succ + cIdxs.length * accounts.length, failed := 0,
        count := st.count + cIdxs.length * accounts.length } := by
  induction cIdxs generalizing st with
  | nil =>
    obtain ⟨r, s, f, cnt⟩ := st
    simp only [LoopState.failed] at hfail
    simp [runCompanies, hfail]
  | cons c cs ih =>
    have hkc : ((st.results.map Prod.fst) ++
        (List.range accounts.length).map (fun a => keyAt companies accounts (c, a))).Nodup := by
      apply List.Nodup.sublist _ hkeys
      rw [List.flatMap_cons]
      exact (List.sublist_append_left _ _).append_left _
    have hinner := runAccountsFrom_clean_all behavior
      (companies.length * accounts.length) companies accounts c st
      (hclean c (by simp)) hkc
    simp only [runCompanies, hinner]
    rw [List.length_cons, Nat.succ_mul] at hcount
    have hfcs : ∀ c2 ∈ cs, ∀ a < accounts.length, cleanCombo (behavior c2 a) :=
      fun c2 hc2 => hclean c2 (by simp [hc2])
    by_cases hbreak : companies.length * accounts.length ≤
        (st.count + accounts.length) + st.failed
    · rw [if_pos hbreak]
      have hzero : cs.length * accounts.length = 0 := by omega
      rcases Nat.mul_eq_zero.mp hzero with hcs | hn0
      · have hcs2 : cs = [] := List.length_eq_zero.mp hcs
        subst hcs2
        simp [Function.comp, hfail, Nat.add_mul]
      · simp [hn0, flatMap_constant_nil, hfail]
    · rw [if_neg hbreak]
      have hkeys2 : (((st.results ++ (List.range accounts.length).map
          (fun a => cleanEntry behavior companies accounts (c, a))).map Prod.fst) ++
          cs.flatMap (fun c2 => (List.range accounts.length).map
            (fun a => keyAt companies accounts (c2, a)))).Nodup := by
        simp only [List.map_append, List.map_map]
        rw [List.append_assoc]
        have hfun : ((Prod.fst ∘ fun a => cleanEntry behavior companies
            accounts (c, a)) : Nat → String) =
            (fun a => keyAt companies accounts (c, a)) := by
          funext a; rfl
        rw [hfun]
        simpa [List.flatMap_cons, List.append_assoc] using hkeys
      rw [ih _ hfcs (by simpa using hfail) (by simp; omega) hkeys2]
      simp only [List.flatMap_cons, List.map_append, List.append_assoc, List.map_map,
        List.length_cons]
      have hcomp : ((cleanEntry behavior companies accounts ∘ fun a => (c, a)) :
          Nat → String × Entry) =
          (fun a => cleanEntry behavior companies accounts (c, a)) := by
        funext a; rfl
      rw [hcomp, Nat.succ_mul]
      simp only [LoopState.mk.injEq]
      refine ⟨trivial, by omega, trivial, by omega⟩

theorem runCompanies_clean_prefix (behavior : Nat → Nat → ComboBehavior)
    (companies accounts : List String) (cIdxs rest : List Nat) (st : LoopState)
    (hn : 0 < accounts.length)
    (hrest : rest ≠ [])
    (hclean : ∀ c ∈ cIdxs, ∀ a < accounts.length, cleanCombo (behavior c a))
    (hfail : st.failed = 0)
    (hcount : st.count + (cIdxs.length + rest.length) * accounts.length =
      companies.length * accounts.length)
    (hkeys : ((st.results.map Prod.fst) ++
      cIdxs.flatMap (fun c => (List.range accounts.length).map
        (fun a => keyAt companies accounts (c, a)))).Nodup) :
    runCompanies behavior (companies.length * accounts.length) companies accounts
        (cIdxs ++ rest) st =
      runCompanies behavior (companies.length * accounts.length) companies accounts rest
        { results := st.results ++
            (cIdxs.flatMap (fun c => (List.range accounts.length).map (fun a => (c, a)))).map
              (cleanEntry behavior companies accounts)
          succ := st.succ + cIdxs.length * accounts.length, failed := 0,
          count := st.count + cIdxs.length * accounts.length } := by
  induction cIdxs generalizing st with
  | nil =>
    obtain ⟨r, s, f, cnt⟩ := st
    simp only [LoopState.failed] at hfail
    simp [hfail]
  | cons c cs ih =>
    have hkc : ((st.results.map Prod.fst) ++
        (List.range accounts.length).map (fun a => keyAt companies accounts (c, a))).Nodup := by
      apply List.Nodup.sublist _ hkeys
      rw [List.flatMap_cons]
      exact (List.sublist_append_left _ _).append_left _
    have hinner := runAccountsFrom_clean_all behavior
      (companies.length * accounts.length) companies accounts c st
      (hclean c (by simp)) hkc
    rw [List.cons_append]
    simp only [runCompanies, hinner]
    rw [List.length_cons] at hcount
    have hd : (cs.length + 1 + rest.length) * accounts.length =
        cs.length * accounts.length + accounts.length +
          rest.length * accounts.length := by
      rw [Nat.add_mul, Nat.add_mul, Nat.one_mul]
    rw [hd] at hcount
    have hpos : 0 < rest.length * accounts.length :=
      Nat.mul_pos (List.length_pos.mpr hrest) hn
    have hnobreak : ¬(companies.length * accounts.length ≤
        (st.count + accounts.length) + st.failed) := by
      rw [hfail]
      omega
    rw [if_neg hnobreak]
    have hfcs : ∀ c2 ∈ cs, ∀ a < accounts.length, cleanCombo (behavior c2 a) :=
      fun c2 hc2 => hclean c2 (by simp [hc2])
    have hkeys2 : (((st.results ++ (List.range accounts.length).map
        (fun a => cleanEntry behavior companies accounts (c, a))).map Prod.fst) ++
        cs.flatMap (fun c2 => (List.range accounts.length).map
          (fun a => keyAt companies accounts (c2, a)))).Nodup := by
      simp only [List.map_append, List.map_map]
      rw [List.append_assoc]
      have hfun : ((Prod.fst ∘ fun a => cleanEntry behavior companies
          accounts (c, a)) : Nat → String) =
          (fun a => keyAt companies accounts (c, a)) := by
        funext a; rfl
      rw [hfun]
      simpa [List.flatMap_cons, List.append_assoc] using hkeys
    have hd2 : (cs.length + rest.length) * accounts.length =
        cs.length * accounts.length + rest.length * accounts.length := by
      rw [Nat.add_mul]
    rw [ih _ hfcs (by simpa using hfail) (by simp [hd2]; omega) hkeys2]
    congr 1
    simp only [List.flatMap_cons, List.map_append, List.append_assoc, List.map_map,
      List.length_cons]
    have hcomp : ((cleanEntry behavior companies accounts ∘ fun a => (c, a)) :
        Nat → String × Entry) =
        (fun a => cleanEntry behavior companies accounts (c, a)) := by
      funext a; rfl
    rw [hcomp, Nat.succ_mul]
    simp only [LoopState.mk.injEq]
    refine ⟨trivial, by omega, trivial, by omega⟩

/-! ### Parser cleaning lemmas -/

theorem selectIdxs_eq_map {α : Type} (l : List α) (idxs : List Nat) (d : α)
    (h : ∀ i ∈ idxs, i < l.length) :
    selectIdxs l idxs = idxs.map (fun i => l.getD i d) := by
  induction idxs with
  | nil => rfl
  | cons i rest ih =>
    have hi : i < l.length := h i (by simp)
    have hsome : l.get? i = some (l.getD i d) := by
      rw [List.getD_eq_getElem l d hi, List.get?_eq_getElem?, List.getElem?_eq_getElem hi]
    simp only [selectIdxs, List.filterMap_cons, hsome, List.map_cons]
    congr 1
    exact ih (fun j hj => h j (by simp [hj]))

theorem mkDataFrame_rect (cols : List String) (data : List (List String)) (df : DataFrame)
    (h : mkDataFrame cols data = some df) :
    ∀ r ∈ df.rows, r.length = df.columns.length := by
  unfold mkDataFrame at h
  by_cases hall : data.all (fun r => decide (r.length = cols.length))
  · rw [if_pos (by simpa using hall)] at h
    obtain rfl : ({ columns := cols, rows := data.map (fun r => r.map Cell.text) } :
        DataFrame) = df := by simpa using h
    intro r hr
    simp only [List.mem_map] at hr
    obtain ⟨r0, hr0, hreq⟩ := hr
    subst hreq
    have := List.all_eq_true.mp hall r0 hr0
    simp only [decide_eq_true_eq] at this
    simpa using this
  · rw [if_neg (by simpa using hall)] at h
    cases h

theorem clean_rect (df : DataFrame)
    (hrect : ∀ r ∈ df.rows, r.length = df.columns.length) :
    ∀ r2 ∈ (_clean_accounting_data df).rows,
      r2.length = (_clean_accounting_data df).columns.length := by
  intro r2 hr2
  simp only [_clean_accounting_data, List.mem_map] at hr2 ⊢
  obtain ⟨r1, hr1, hr2eq⟩ := hr2
  subst hr2eq
  have hr1a := (List.mem_filter.mp hr1).1
  simp only [List.mem_map] at hr1a
  obtain ⟨r0, hr0, hr1eq⟩ := hr1a
  have hlen1 : r1.length = df.columns.length := by
    rw [← hr1eq]
    simp only [List.length_map, List.length_zip]
    have := hrect r0 hr0
    omega
  have hkbound : ∀ i ∈ (List.range df.columns.length).filter
      (fun i => !((df.rows.map (fun r => (df.columns.zip r).map
        (fun p => cleanCellAt p.1 p.2))).filter
          (fun r => !(r.all isNullCell))).all
        (fun r => isNullCell (r.getD i Cell.null))), i < df.columns.length := by
    intro i hi
    have := (List.mem_filter.mp hi).1
    simpa using this
  rw [selectIdxs_eq_map r1 _ Cell.null
    (fun i hi => by rw [hlen1]; exact hkbound i hi)]
  rw [selectIdxs_eq_map df.columns _ ""
    (fun i hi => hkbound i hi)]
  simp

theorem getD_map_lt {α β : Type} (l : List α) (f : α → β) (j : Nat) (d : β) (d2 : α)
    (hj : j < l.length) : (l.map f).getD j d = f (l.getD j d2) := by
  rw [List.getD_eq_getElem _ d (by simpa using hj), List.getD_eq_getElem _ d2 hj]
  simp

theorem selectIdxs_getD {α : Type} (l : List α) (idxs : List Nat) (d : α) (j : Nat)
    (hb : ∀ i ∈ idxs, i < l.length) (hj : j < idxs.length) :
    (selectIdxs l idxs).getD j d = l.getD (idxs.getD j 0) d := by
  rw [selectIdxs_eq_map l idxs d hb]
  rw [getD_map_lt idxs _ j d 0 hj]

theorem getD_mem_of_lt {α : Type} (l : List α) (j : Nat) (d : α) (hj : j < l.length) :
    l.getD j d ∈ l := by
  rw [List.getD_eq_getElem _ d hj]
  exact List.getElem_mem ..

theorem clean_money_cells (df : DataFrame)
    (hrect : ∀ r ∈ df.rows, r.length = df.columns.length)
    (r2 : List Cell) (hr2 : r2 ∈ (_clean_accounting_data df).rows)
    (j : Nat) (hj : j < r2.length)
    (hname : (_clean_accounting_data df).columns.getD j "" = "DEBE" ∨
      (_clean_accounting_data df).columns.getD j "" = "HABER" ∨
      (_clean_accounting_data df).columns.getD j "" = "SALDO") :
    ∃ q : ℚ, r2.getD j Cell.null = Cell.num q := by
  simp only [_clean_accounting_data, List.mem_map] at hr2 hname
  obtain ⟨r1, hr1, hr2eq⟩ := hr2
  subst hr2eq
  have hr1a := (List.mem_filter.mp hr1).1
  simp only [List.mem_map] at hr1a
  obtain ⟨r0, hr0, hr1eq⟩ := hr1a
  have hlen1 : r1.length = df.columns.length := by
    rw [← hr1eq]
    simp only [List.length_map, List.length_zip]
    have := hrect r0 hr0
    omega
  set keep := (List.range df.columns.length).filter
    (fun i => !((df.rows.map (fun r => (df.columns.zip r).map
      (fun p => cleanCellAt p.1 p.2))).filter
        (fun r => !(r.all isNullCell))).all
      (fun r => isNullCell (r.getD i Cell.null))) with hkeep
  have hkbound : ∀ i ∈ keep, i < df.columns.length := by
    intro i hi
    rw [hkeep] at hi
    have := (List.mem_filter.mp hi).1
    simpa using this
  have hjk : j < keep.length := by
    rw [selectIdxs_eq_map r1 keep Cell.null
      (fun i hi => by rw [hlen1]; exact hkbound i hi)] at hj
    simpa using hj
  have hi0 : keep.getD j 0 ∈ keep := getD_mem_of_lt keep j 0 hjk
  have hi0b : keep.getD j 0 < df.columns.length := hkbound _ hi0
  rw [selectIdxs_getD r1 keep Cell.null j
    (fun i hi => by rw [hlen1]; exact hkbound i hi) hjk]
  rw [selectIdxs_getD df.columns keep "" j (fun i hi => hkbound i hi) hjk] at hname
  have hzb : keep.getD j 0 < (df.columns.zip r0).length := by
    simp only [List.length_zip]
    have := hrect r0 hr0
    omega
  have hcell : r1.getD (keep.getD j 0) Cell.null =
      cleanCellAt (df.columns.getD (keep.getD j 0) "") (r0.getD (keep.getD j 0) Cell.null) := by
    rw [← hr1eq]
    rw [getD_map_lt (df.columns.zip r0) _ (keep.getD j 0) Cell.null ("", Cell.null) hzb]
    have hz : (df.columns.zip r0).getD (keep.getD j 0) ("", Cell.null) =
        (df.columns.getD (keep.getD j 0) "", r0.getD (keep.getD j 0) Cell.null) := by
      rw [List.getD_eq_getElem _ _ hzb,
        List.getD_eq_getElem _ _ hi0b,
        List.getD_eq_getElem _ _ (by have := hrect r0 hr0; omega : keep.getD j 0 < r0.length)]
      exact List.getElem_zip ..
    rw [hz]
  rw [hcell]
  rcases hname with h | h | h <;>
    · rw [h]
      simp [cleanCellAt, cleanMoneyCell]

/-! ### Claim theorems -/

/-- Claim C3, counterexample: a validation failure is surfaced by
extract_report as the sentinel pair (empty frame,
"Archivo inválido: report.xls"), and the batch records that outcome as
success = true with error = None and an empty table - not as Failed
with the reason in the error field, as the claim states. -/
theorem c3_counterexample_invalid_file_recorded_as_success :
    extract_report demoEnvInvalid false =
      (DataFrame.empty, some ("Archivo inválido: " ++ demoInvalidFile.name)) ∧
    (recordCombo DataFrame.empty (some ("Archivo inválido: " ++ demoInvalidFile.name))
      "c" "a" "c_a").success = true ∧
    (recordCombo DataFrame.empty (some ("Archivo inválido: " ++ demoInvalidFile.name))
      "c" "a" "c_a").error = none ∧
    (recordCombo DataFrame.empty (some ("Archivo inválido: " ++ demoInvalidFile.name))
      "c" "a" "c_a").data = DataFrame.empty := by
  refine ⟨by decide, by decide, by decide, by decide⟩

/-- Claim C3 (amended): a processed target is recorded with
success = true exactly when the extraction test passes, that is when
the frame is non-empty or the second component is a non-empty string
other than "Descarga no encontrada" - including the sentinel error
strings of parse and validation failures, which are therefore recorded
as Succeeded with error = None; only the remaining outcomes are
recorded as Failed, always with the generic no-data message, never with
the parse reason in the error field. -/
theorem c3_recording_amended (df : DataFrame) (fp : Option String)
    (company account code : String) :
    (recordCombo df fp company account code).success = extractionSucceeded df fp ∧
    (recordCombo df fp company account code).error =
      (if extractionSucceeded df fp then none
       else some "No se extrajeron datos ni se detectó descarga") ∧
    (recordCombo df fp company account code).data =
      (if extractionSucceeded df fp then df else DataFrame.empty) ∧
    (recordCombo df fp company account code).file_path =
      (if extractionSucceeded df fp then fp else none) ∧
    extractionSucceeded df fp = (!df.isEmpty || filePathCounts fp) := by
  by_cases h : extractionSucceeded df fp = true
  · refine ⟨?_, ?_, ?_, ?_, rfl⟩ <;>
      simp [recordCombo, h, successCombinationResult]
  · simp only [Bool.not_eq_true] at h
    refine ⟨?_, ?_, ?_, ?_, rfl⟩ <;>
      simp [recordCombo, h, _create_failed_combination_result]

/-- Claim C4: the batch function is total (it is a Lean function over
its oracles) and for every behavior, general-exception outcome and
input lists, the returned dict holds a summary whose success rate is
succeeded / total * 100 when total is positive and 0 otherwise - in
the general-exception arm the succeeded field is 0, so the stored rate
0 still satisfies the formula. -/
theorem c4_summary_rate_formula (behavior : Nat → Nat → ComboBehavior)
    (generalRaise : Option String) (companies accounts : List String) :
    ∃ s : Summary,
      (extract_multiple_reports_by_company_and_account behavior generalRaise
        companies accounts).lookup "_summary" = some (Entry.summary s) ∧
      s.total_combinations = companies.length * accounts.length ∧
      s.success_rate = (if 0 < s.total_combinations then
        ((s.successful_extractions : ℚ) / (s.total_combinations : ℚ)) * 100 else 0) := by
  cases generalRaise with
  | some e =>
    refine ⟨Summary.mk (companies.length * accounts.length) companies.length
        accounts.length 0 (companies.length * accounts.length) 0 (some e), ?_, rfl, ?_⟩
    · simp [extract_multiple_reports_by_company_and_account, List.lookup]
    · by_cases h : 0 < companies.length * accounts.length
      · simp [h]
      · simp [h]
  | none =>
    simp only [extract_multiple_reports_by_company_and_account]
    exact ⟨_, lookup_dictInsert _ _ _, rfl, rfl⟩

/-- Claim C5, counterexample: a payload that starts with the ZIP
signature and contains the generic html tag but none of the vendor
markers is accepted by validation (the binary-signature check runs
before the generic-HTML rejection), so the claim's unconditional
generic-HTML rejection does not hold as stated. -/
theorem c5_counterexample_signature_beats_html :
    _validate_excel_file demoPkHtml = true ∧
    strContains (pyLower (strTake 512 demoPkHtml)) "<html" = true ∧
    nubox_html_excel_indicators.all (fun i => !(strContains demoPkHtml i)) = true := by
  refine ⟨by decide, by decide, by decide⟩

/-- Claim C5 (amended): with containment read on the header window the
code inspects (512 bytes for validation, 500 for format dispatch): any
vendor marker in the window makes validation accept; the namespace
marker in the window routes reading to the HTML-Excel parser; a payload
with a generic HTML marker in the lowered window, no vendor marker and
no binary spreadsheet signature prefix is rejected; and the
report-title fragment alone passes validation but does not route to
the HTML-Excel parser. -/
theorem c5_classification_amended :
    (∀ content : String,
      nubox_html_excel_indicators.any (fun i => strContains (strTake 512 content) i) = true →
      _validate_excel_file content = true) ∧
    (∀ content : String,
      strContains (strTake 500 content)
        "xmlns:x=\"urn:schemas-microsoft-com:office:excel\"" = true →
      _is_html_excel_format content = true) ∧
    (∀ content : String,
      html_indicators.any (fun i => strContains (pyLower (strTake 512 content)) i) = true →
      nubox_html_excel_indicators.any (fun i => strContains (strTake 512 content) i) = false →
      excel_signatures.any (fun sig => pyStartsWith sig (strTake 512 content)) = false →
      _validate_excel_file content = false) ∧
    (_is_html_excel_format demoTitleOnly = false ∧
      _validate_excel_file demoTitleOnly = true) := by
  refine ⟨?_, ?_, ?_, by decide, by decide⟩
  · intro content h
    unfold _validate_excel_file
    rw [if_pos h]
  · intro content h
    unfold _is_html_excel_format html_excel_indicators
    simp [h]
  · intro content h1 h2 h3
    unfold _validate_excel_file
    rw [if_neg (by simp [h2]), if_neg (by simp [h3]), if_pos h1]

/-- Claim C10: extract_report always returns a pair; any exception in
its body yields (empty frame, None); and the second component is not
always a real path - concrete environments produce the sentinel
strings "Descarga no encontrada", "Archivo inválido: name" and
"Error de lectura: name" in that slot. -/
theorem c10_extract_report_outcomes :
    (∀ (env : Env) (mult : Bool), env.raiseExtract = true →
      extract_report env mult = (DataFrame.empty, none)) ∧
    extract_report demoEnvEmpty false = (DataFrame.empty, some "Descarga no encontrada") ∧
    extract_report demoEnvInvalid false =
      (DataFrame.empty, some ("Archivo inválido: " ++ demoInvalidFile.name)) ∧
    extract_report demoEnvUnreadable false =
      (DataFrame.empty, some ("Error de lectura: " ++ demoUnreadableFile.name)) := by
  refine ⟨?_, by decide, by decide, by decide⟩
  intro env mult h
  simp [extract_report, h]

/-- Witness for claim C10: the exception arm at a concrete
environment. -/
theorem c10_extract_report_outcomes_witness :
    extract_report demoEnvRaise false = (DataFrame.empty, none) :=
  c10_extract_report_outcomes.1 demoEnvRaise false rfl

theorem parse_html_excel_cases (tbl : Option (List (List String))) (path : String) :
    (_parse_html_excel tbl path).1 = DataFrame.empty ∨
    ∃ cols data df, mkDataFrame cols data = some df ∧
      (_parse_html_excel tbl path).1 = _clean_accounting_data df := by
  cases tbl with
  | none => left; rfl
  | some rows =>
    simp only [_parse_html_excel]
    by_cases hdat : (scanRows rows false [] []).2.isEmpty = true
    · left; rw [if_pos hdat]
    · rw [if_neg hdat]
      cases hmk : mkDataFrame
          (if 10 < (scanRows rows false [] []).1.length then
            (scanRows rows false [] []).1.take 10 else (scanRows rows false [] []).1)
          (scanRows rows false [] []).2 with
      | none => left; simp [hmk]
      | some df =>
        right
        exact ⟨_, _, df, hmk, by simp [hmk]⟩

/-- Claim C6: every table produced by the HTML-Excel extraction is
rectangular - each row of the result has exactly one cell per column,
for every input table and path, through the header cut, the frame
construction and the cleaning passes. -/
theorem c6_parse_rectangular (tbl : Option (List (List String))) (path : String)
    (row : List Cell) (hrow : row ∈ (_parse_html_excel tbl path).1.rows) :
    row.length = (_parse_html_excel tbl path).1.columns.length := by
  rcases parse_html_excel_cases tbl path with h | ⟨cols, data, df, hmk, h⟩
  · rw [h] at hrow
    simp [DataFrame.empty] at hrow
  · rw [h] at hrow ⊢
    exact clean_rect df (mkDataFrame_rect cols data df hmk) row hrow

/-- Witness for claim C6: the demo table's cleaned movement row sits in
the parse result and has exactly one cell per column. -/
theorem c6_parse_rectangular_witness :
    demoCleanRow ∈ (_parse_html_excel (some demoTable) "report.xls").1.rows ∧
    demoCleanRow.length = (_parse_html_excel (some demoTable) "report.xls").1.columns.length :=
  ⟨by decide, c6_parse_rectangular (some demoTable) "report.xls" demoCleanRow (by decide)⟩

/-- Claim C7: in a cleaned frame every cell under a monetary column
(DEBE, HABER, SALDO) is a decimal - never null and never raw text;
the noisy cell text in the style of dollar-and-comma noise coerces
without raising (to the zero fallback, since the stripped residue does
not parse as a decimal), and any monetary text whose stripped residue
is unparsable coerces to 0. -/
theorem c7_monetary_coercion (df : DataFrame)
    (hrect : ∀ r ∈ df.rows, r.length = df.columns.length)
    (r2 : List Cell) (hr2 : r2 ∈ (_clean_accounting_data df).rows)
    (j : Nat) (hj : j < r2.length)
    (hname : (_clean_accounting_data df).columns.getD j "" = "DEBE" ∨
      (_clean_accounting_data df).columns.getD j "" = "HABER" ∨
      (_clean_accounting_data df).columns.getD j "" = "SALDO") :
    (∃ q : ℚ, r2.getD j Cell.null = Cell.num q) ∧
    cleanMoneyCell (Cell.text "$1.234,56-") = Cell.num 0 ∧
    (∀ s : String, parseDecimal (stripMoneyChars s) = none →
      cleanMoneyCell (Cell.text s) = Cell.num 0) := by
  refine ⟨clean_money_cells df hrect r2 hr2 j hj hname, by decide, ?_⟩
  intro s h
  unfold cleanMoneyCell cellStr
  rw [h]
  rfl

/-- Witness for claim C7: the demo frame's cleaned movement row has a
decimal in its DEBE position. -/
theorem c7_monetary_coercion_witness :
    (∃ q : ℚ, demoCleanRow.getD 4 Cell.null = Cell.num q) ∧
    cleanMoneyCell (Cell.text "$1.234,56-") = Cell.num 0 ∧
    (∀ s : String, parseDecimal (stripMoneyChars s) = none →
      cleanMoneyCell (Cell.text s) = Cell.num 0) :=
  c7_monetary_coercion demoDf (by decide) demoCleanRow (by decide) 4 (by decide)
    (Or.inl (by decide))

theorem insertDesc_ne_nil (f : DLFile) (l : List DLFile) : insertDesc f l ≠ [] := by
  cases l with
  | nil => simp [insertDesc]
  | cons g gs =>
    simp only [insertDesc]
    split <;> simp

theorem sortDesc_eq_nil_iff (l : List DLFile) : sortDesc l = [] ↔ l = [] := by
  cases l with
  | nil => simp [sortDesc]
  | cons f fs =>
    simp only [sortDesc]
    constructor
    · intro h; exact absurd h (insertDesc_ne_nil f (sortDesc fs))
    · intro h; cases h

theorem sortDesc_head_max (l : List DLFile) (f : DLFile) (rest : List DLFile)
    (h : sortDesc l = f :: rest) : f ∈ l ∧ ∀ g ∈ l, g.ctime ≤ f.ctime := by
  induction l generalizing f rest with
  | nil => cases h
  | cons x xs ih =>
    simp only [sortDesc] at h
    cases hxs : sortDesc xs with
    | nil =>
      rw [hxs] at h
      simp only [insertDesc] at h
      injection h with h1 h2
      subst h1
      have hxs2 : xs = [] := (sortDesc_eq_nil_iff xs).mp hxs
      subst hxs2
      constructor
      · simp
      · intro g hg
        simp only [List.mem_singleton] at hg
        subst hg
        exact le_refl _
    | cons y ys =>
      rw [hxs] at h
      obtain ⟨hy, hmax⟩ := ih y ys hxs
      simp only [insertDesc] at h
      by_cases hcmp : y.ctime < x.ctime
      · rw [if_pos hcmp] at h
        injection h with h1 h2
        subst h1
        constructor
        · simp
        · intro g hg
          rcases List.mem_cons.mp hg with hgx | hg2
          · subst hgx; exact le_refl _
          · exact le_of_lt (lt_of_le_of_lt (hmax g hg2) hcmp)
      · rw [if_neg hcmp] at h
        injection h with h1 h2
        subst h1
        constructor
        · exact List.mem_cons_of_mem x hy
        · intro g hg
          rcases List.mem_cons.mp hg with hgx | hg2
          · subst hgx; omega
          · exact hmax g hg2

/-- Claim C9: artifact discovery draws only from glob matches created
within the last 120 seconds; when none qualifies it reports the
missing-download sentinel, and when some qualify the processed file is
a qualifying one of maximal creation time. -/
theorem c9_artifact_discovery (env : Env) (hraise : env.raiseFind = false) :
    (recentFiles env = [] →
      _find_and_process_downloaded_file env =
        (DataFrame.empty, some "Descarga no encontrada")) ∧
    (∀ f ∈ recentFiles env, matchesXlsGlob f.name = true ∧ env.now - f.ctime < 120) ∧
    (recentFiles env ≠ [] →
      ∃ g, g ∈ recentFiles env ∧ (∀ f ∈ recentFiles env, f.ctime ≤ g.ctime) ∧
        _find_and_process_downloaded_file env =
          (if !(_validate_excel_file g.content) then
            (DataFrame.empty, some ("Archivo inválido: " ++ g.name))
          else _read_excel_file g)) := by
  refine ⟨?_, ?_, ?_⟩
  · intro h
    unfold _find_and_process_downloaded_file
    rw [if_neg (by simp [hraise]), h]
    rfl
  · intro f hf
    unfold recentFiles at hf
    have h1 := List.mem_filter.mp hf
    have h2 := List.mem_filter.mp h1.1
    refine ⟨h2.2, ?_⟩
    have := h1.2
    simpa using this
  · intro hne
    cases hsd : sortDesc (recentFiles env) with
    | nil => exact absurd ((sortDesc_eq_nil_iff _).mp hsd) hne
    | cons g rest =>
      obtain ⟨hmem, hmax⟩ := sortDesc_head_max _ g rest hsd
      refine ⟨g, hmem, hmax, ?_⟩
      unfold _find_and_process_downloaded_file
      rw [if_neg (by simp [hraise]), hsd]

/-- Witness for claim C9: in the environment with one stale and one
recent download, the selected file is the recent one. -/
theorem c9_artifact_discovery_witness :
    ∃ g, g ∈ recentFiles demoEnvInvalid ∧
      (∀ f ∈ recentFiles demoEnvInvalid, f.ctime ≤ g.ctime) ∧
      _find_and_process_downloaded_file demoEnvInvalid =
        (if !(_validate_excel_file g.content) then
          (DataFrame.empty, some ("Archivo inválido: " ++ g.name))
        else _read_excel_file g) :=
  (c9_artifact_discovery demoEnvInvalid rfl).2.2 (by decide)

theorem rutStartMatch_nonempty (s : String) (h : rutStartMatch s = true) : s ≠ "" := by
  intro he
  subst he
  revert h
  decide

/-- Claim C8, counterexample: a post-header row whose joined text
contains the TOTAL marker (so the claim's acceptance criterion holds)
is nevertheless dropped, because its first cell starts with TOTAL and
the gate at report_extractor.py:830 excludes it before
_is_valid_data_row ever runs - the parse of a table holding only the
header and that row keeps no data row at all. -/
theorem c8_counterexample_total_row_dropped :
    (_parse_html_excel (some [demoHeaderRow, demoTotalRow]) "report.xls").1 =
      DataFrame.empty ∧
    listContainsSeq "TOTAL".toList
      (pyUpper (joinSpace (demoTotalRow.map normSpaces))).toList = true ∧
    demoTotalRow.length = demoHeaderRow.length := by
  refine ⟨by decide, by decide, by decide⟩

/-- Claim C8 (amended): a scanned row after the header, wide enough for
the header, is kept as a data row if and only if its first cell is
non-empty, does not start with TOTAL, and at least one of the claim's
criteria holds: a leading DD/MM/YYYY date in the first cell, a leading
Chilean RUT in the third cell, or an ACUMULACION ANTERIOR / TOTAL
marker in the row's joined upper-cased text. TOTAL rows whose first
cell carries the marker are dropped, not kept. -/
theorem c8_row_acceptance_amended (headers row : List String)
    (h5 : 5 < headers.length) (hlen : headers.length ≤ row.length) :
    rowKept row = ((row.headD "" ≠ "") && !(pyStartsWith "TOTAL" (row.headD "")) &&
      (dateStartMatch (row.headD "") || rutStartMatch (row.getD 2 "") ||
        (listContainsSeq "ACUMULACION ANTERIOR".toList (pyUpper (joinSpace row)).toList ||
          listContainsSeq "TOTAL".toList (pyUpper (joinSpace row)).toList))) := by
  have hlen3 : ¬(row.length < 3) := by omega
  have hemp : row.isEmpty = false := by
    cases row with
    | nil => simp only [List.length_nil] at hlen; omega
    | cons x xs => rfl
  unfold rowKept _is_valid_data_row
  rw [hemp]
  rw [show (decide (row.length < 3)) = false from decide_eq_false hlen3]
  simp only [Bool.or_self, Bool.false_eq_true, if_false]
  congr 1
  cases hdt : dateStartMatch (row.headD "") with
  | true => simp
  | false =>
    simp only [Bool.false_or, Bool.false_eq_true, if_false]
    cases hrt : rutStartMatch (row.getD 2 "") with
    | true =>
      have h2l : 2 < row.length := by omega
      have hne2 : row.getD 2 "" ≠ "" := rutStartMatch_nonempty _ hrt
      rw [List.getD_eq_getElem _ _ h2l] at hne2
      simp [h2l, hne2]
    | false =>
      simp only [Bool.and_false, Bool.false_eq_true, if_false, Bool.false_or]
      cases hm : (listContainsSeq "ACUMULACION ANTERIOR".toList
          (pyUpper (joinSpace row)).toList ||
          listContainsSeq "TOTAL".toList (pyUpper (joinSpace row)).toList) <;>
        simp [hm]

/-- Witness for claim C8 (amended): the demo movement row is accepted,
evaluated at the demo header. -/
theorem c8_row_acceptance_amended_witness :
    rowKept demoDateRow = ((demoDateRow.headD "" ≠ "") &&
      !(pyStartsWith "TOTAL" (demoDateRow.headD "")) &&
      (dateStartMatch (demoDateRow.headD "") || rutStartMatch (demoDateRow.getD 2 "") ||
        (listContainsSeq "ACUMULACION ANTERIOR".toList
          (pyUpper (joinSpace demoDateRow)).toList ||
          listContainsSeq "TOTAL".toList (pyUpper (joinSpace demoDateRow)).toList))) :=
  c8_row_acceptance_amended demoHeaderRow demoDateRow (by decide) (by decide)

/-- Witness for claim C5 (amended): concrete payloads exercising the
accept, dispatch and reject arms. -/
theorem c5_classification_amended_witness :
    _validate_excel_file demoTitleOnly = true ∧
    _is_html_excel_format "xmlns:x=\"urn:schemas-microsoft-com:office:excel\"" = true ∧
    _validate_excel_file demoInvalidFile.content = false :=
  ⟨c5_classification_amended.1 demoTitleOnly (by decide),
   c5_classification_amended.2.1 "xmlns:x=\"urn:schemas-microsoft-com:office:excel\""
     (by decide),
   c5_classification_amended.2.2.1 demoInvalidFile.content (by decide) (by decide)
     (by decide)⟩

/-- Claim C1, counterexample: with two companies, two accounts and a
configuration failure on every combination - the navigation oracles all
answer true and are never consulted, because a configuration failure
goes straight to the next combination - the returned map holds only the
first company's two combination keys plus the batch summary stored
under '_summary' in the same map: the second company's combinations are
silently dropped without entries by the early-exit check at
report_extractor.py:377 even though navigation recovery never ran, and
the summary is an additional entry of the very results map. -/
theorem c1_counterexample_summary_entry_and_silent_drop :
    (extract_multiple_reports_by_company_and_account cfgFailBehavior none
      ["c1", "c2"] ["a1", "a2"]).map Prod.fst = ["c1 - a1", "c1 - a2", "_summary"] ∧
    (extract_multiple_reports_by_company_and_account cfgFailBehavior none
      ["c1", "c2"] ["a1", "a2"]).lookup "c2 - a1" = none := by
  refine ⟨by decide, by decide⟩

/-- Claim C1 (amended): when every combination configures, extracts
with a passing success test and the Mayor link always brings the form
back (and the combination keys are pairwise distinct and distinct from
'_summary'), the returned dict holds exactly the m*n combination keys
in cross-product order - followed by the batch summary, which is stored
as one more entry of the same map under the reserved key '_summary';
with failures, combinations of later companies can also be dropped with
no entry when processed-count plus failed-count reaches the total after
a company's inner loop, without any navigation abort. -/
theorem c1_cross_product_amended (behavior : Nat → Nat → ComboBehavior)
    (companies accounts : List String)
    (hclean : ∀ c < companies.length, ∀ a < accounts.length, cleanCombo (behavior c a))
    (hkeys : (allComboKeys companies accounts).Nodup)
    (hsum : "_summary" ∉ allComboKeys companies accounts) :
    (extract_multiple_reports_by_company_and_account behavior none companies accounts).map
      Prod.fst = allComboKeys companies accounts ++ ["_summary"] := by
  simp only [extract_multiple_reports_by_company_and_account]
  rw [runCompanies_clean_full behavior companies accounts
    (List.range companies.length)
    { results := [], succ := 0, failed := 0, count := 0 }
    (fun c hc a ha => hclean c (by simpa using hc) a ha)
    rfl
    (by simp)
    (by
      simp only [List.map_nil, List.nil_append]
      rw [← allComboKeys_eq]
      exact hkeys)]
  have hfun : (Prod.fst ∘ cleanEntry behavior companies accounts) =
      keyAt companies accounts := funext (fun p => rfl)
  rw [dictInsert_eq_append _ _ _ ?fresh]
  · simp only [List.map_append, List.nil_append, List.map_map, hfun]
    rfl
  case fresh =>
    intro p hp
    simp only [List.nil_append, List.mem_map] at hp
    obtain ⟨q, hq, rfl⟩ := hp
    intro he
    apply hsum
    have hmem : keyAt companies accounts q ∈ allComboKeys companies accounts :=
      List.mem_map_of_mem _ hq
    rw [show (cleanEntry behavior companies accounts q).1 =
      keyAt companies accounts q from rfl] at he
    rw [← he]
    exact hmem

/-- Witness for claim C1 (amended): two companies, one account, all
combinations succeeding - the keys are the two combination keys then
the summary key. -/
theorem c1_cross_product_amended_witness :
    (allComboKeys ["c1", "c2"] ["a1"]).Nodup ∧
    (extract_multiple_reports_by_company_and_account okBehavior none
      ["c1", "c2"] ["a1"]).map Prod.fst =
        allComboKeys ["c1", "c2"] ["a1"] ++ ["_summary"] :=
  ⟨by decide, c1_cross_product_amended okBehavior ["c1", "c2"] ["a1"]
    (by decide) (by decide) (by decide)⟩

theorem processCombo_navfail (b : ComboBehavior) (total : Nat)
    (companies accounts : List String) (cIdx aIdx : Nat) (st : LoopState)
    (hcfg : b.config = true) (hraise : b.raiseMsg = none)
    (hmayor : b.mayorOk = false) (hnav : b.navOk = false)
    (hcount : st.count + 1 < total) :
    processCombo b total companies accounts cIdx aIdx st =
      ({ results := _mark_remaining_combinations_as_failed
            (dictInsert st.results (keyAt companies accounts (cIdx, aIdx))
              (Entry.result (recordCombo b.report.1 b.report.2 (companies.getD cIdx "")
                (accounts.getD aIdx "")
                (safeCombinationCode (companies.getD cIdx "") (accounts.getD aIdx "")))))
            companies accounts
            (if accounts.length ≤ aIdx + 1 then cIdx + 1 else cIdx)
            (if accounts.length ≤ aIdx + 1 then 0 else aIdx + 1)
            "Error de navegación - proceso interrumpido"
         succ := st.succ + (if (recordCombo b.report.1 b.report.2 (companies.getD cIdx "")
            (accounts.getD aIdx "")
            (safeCombinationCode (companies.getD cIdx "") (accounts.getD aIdx ""))).success
            then 1 else 0)
         failed := (st.failed + (if (recordCombo b.report.1 b.report.2 (companies.getD cIdx "")
            (accounts.getD aIdx "")
            (safeCombinationCode (companies.getD cIdx "") (accounts.getD aIdx ""))).success
            then 0 else 1)) + (total - (st.count + 1))
         count := st.count + 1 }, LoopFlow.brk) := by
  unfold processCombo
  rw [hcfg, hraise]
  simp only [Bool.not_true, Bool.false_eq_true, if_false, hmayor, hnav]
  rw [if_pos hcount]
  rfl

/-- Claim C2: when the combinations before (c0, a0) all configure,
extract successfully and navigate back, and at (c0, a0) the Mayor-link
click and the alternative re-navigation both fail while combinations
remain, then every remaining combination receives the
navigation-interrupted failure record in one pass, the batch produces
no further extraction attempts (the remaining keys hold exactly the
bulk-marked records), and the summary's failed count includes all
remaining combinations. -/
theorem c2_navigation_abort_bulk_marking (behavior : Nat → Nat → ComboBehavior)
    (companies accounts : List String) (c0 a0 : Nat)
    (hc0 : c0 < companies.length) (ha0 : a0 < accounts.length)
    (hclean : ∀ c a, (c < c0 ∧ a < accounts.length) ∨ (c = c0 ∧ a < a0) →
      cleanCombo (behavior c a))
    (hcfg : (behavior c0 a0).config = true)
    (hraise : (behavior c0 a0).raiseMsg = none)
    (hmayor : (behavior c0 a0).mayorOk = false)
    (hnav : (behavior c0 a0).navOk = false)
    (hrem : c0 * accounts.length + a0 + 1 < companies.length * accounts.length)
    (hkeys : (allComboKeys companies accounts).Nodup)
    (hsum : "_summary" ∉ allComboKeys companies accounts) :
    (∀ c a, c < companies.length → a < accounts.length →
      (c0 < c ∨ (c = c0 ∧ a0 < a)) →
      (extract_multiple_reports_by_company_and_account behavior none companies
        accounts).lookup (keyAt companies accounts (c, a)) =
        some (Entry.result (_create_failed_combination_result
          "Error de navegación - proceso interrumpido"
          (companies.getD c "") (accounts.getD a "")
          (safeCombinationCode (companies.getD c "") (accounts.getD a ""))))) ∧
    (∃ s : Summary,
      (extract_multiple_reports_by_company_and_account behavior none companies
        accounts).lookup "_summary" = some (Entry.summary s) ∧
      s.failed_extractions =
        (if extractionSucceeded (behavior c0 a0).report.1 (behavior c0 a0).report.2
          then 0 else 1) +
        (companies.length * accounts.length - (c0 * accounts.length + a0 + 1)) ∧
      s.successful_extractions = c0 * accounts.length + a0 +
        (if extractionSucceeded (behavior c0 a0).report.1 (behavior c0 a0).report.2
          then 1 else 0)) := by
  have hn : 0 < accounts.length := by omega
  have hfun : (Prod.fst ∘ cleanEntry behavior companies accounts) =
      keyAt companies accounts := funext (fun p => rfl)
  have hkeysD : (((List.range c0).flatMap (fun c => (List.range accounts.length).map
      (fun a => keyAt companies accounts (c, a)))) ++
      (((List.range a0).map (fun a => keyAt companies accounts (c0, a))) ++
        (keyAt companies accounts (c0, a0) ::
          ((((List.range accounts.length).drop (a0 + 1)).map
            (fun a => keyAt companies accounts (c0, a))) ++
            (((List.range companies.length).drop (c0 + 1)).flatMap
              (fun c => (List.range accounts.length).map
                (fun a => keyAt companies accounts (c, a)))))))).Nodup := by
    have h1 := hkeys
    unfold allComboKeys at h1
    rw [allPairs_decomp hc0 ha0] at h1
    simpa [List.map_flatMap, List.map_map, Function.comp] using h1
  have htake : (List.range companies.length).take c0 = List.range c0 := by
    rw [List.take_range]
    congr 1
    omega
  have hm : List.range companies.length =
      List.range c0 ++ (List.range companies.length).drop c0 := by
    rw [← htake, List.take_append_drop]
  have htaken : (List.range accounts.length).take a0 = List.range a0 := by
    rw [List.take_range]
    congr 1
    omega
  have hnsplit : List.range accounts.length =
      List.range a0 ++ (List.range accounts.length).drop a0 := by
    rw [← htaken, List.take_append_drop]
  have hrest : (List.range companies.length).drop c0 ≠ [] := by
    rw [drop_range_cons hc0]
    simp
  have hcleanP : ∀ c ∈ List.range c0, ∀ a < accounts.length, cleanCombo (behavior c a) :=
    fun c hc a ha => hclean c a (Or.inl ⟨List.mem_range.mp hc, ha⟩)
  have hcountP : (0 : Nat) + ((List.range c0).length +
      ((List.range companies.length).drop c0).length) * accounts.length =
      companies.length * accounts.length := by
    simp only [List.length_range, List.length_drop, Nat.zero_add]
    congr 1
    omega
  have hkeysP : ((([] : Results).map Prod.fst) ++
      (List.range c0).flatMap (fun c => (List.range accounts.length).map
        (fun a => keyAt companies accounts (c, a)))).Nodup := by
    simp only [List.map_nil, List.nil_append]
    exact List.Nodup.sublist (List.sublist_append_left _ _) hkeysD
  have hpre := runCompanies_clean_prefix behavior companies accounts (List.range c0)
    ((List.range companies.length).drop c0)
    { results := [], succ := 0, failed := 0, count := 0 }
    hn hrest hcleanP rfl hcountP hkeysP
  have hpre2 : runCompanies behavior (companies.length * accounts.length) companies
      accounts (List.range c0 ++ (List.range companies.length).drop c0)
      { results := [], succ := 0, failed := 0, count := 0 } =
      runCompanies behavior (companies.length * accounts.length) companies accounts
        ((List.range companies.length).drop c0)
        { results := ((List.range c0).flatMap (fun c =>
            (List.range accounts.length).map (fun a => (c, a)))).map
              (cleanEntry behavior companies accounts)
          succ := 0 + (List.range c0).length * accounts.length, failed := 0,
          count := 0 + (List.range c0).length * accounts.length } := hpre
  have hPfst : ((((List.range c0).flatMap (fun c =>
      (List.range accounts.length).map (fun a => (c, a)))).map
        (cleanEntry behavior companies accounts)).map Prod.fst) =
      (List.range c0).flatMap (fun c => (List.range accounts.length).map
        (fun a => keyAt companies accounts (c, a))) := by
    rw [List.map_map, hfun, List.map_flatMap]
    apply flatMap_congr_mem
    intro c hc
    rw [List.map_map]
    rfl
  have hcleanA : ∀ a ∈ List.range a0, cleanCombo (behavior c0 a) :=
    fun a ha => hclean c0 a (Or.inr ⟨rfl, List.mem_range.mp ha⟩)
  have hkeysA : (((((List.range c0).flatMap (fun c =>
      (List.range accounts.length).map (fun a => (c, a)))).map
        (cleanEntry behavior companies accounts)).map Prod.fst) ++
      (List.range a0).map (fun a => keyAt companies accounts (c0, a))).Nodup := by
    rw [hPfst]
    exact List.Nodup.sublist
      ((List.sublist_append_left _ _).append_left _) hkeysD
  have haccPre := runAccountsFrom_clean_append behavior
    (companies.length * accounts.length) companies accounts c0 (List.range a0)
    ((List.range accounts.length).drop a0)
    { results := ((List.range c0).flatMap (fun c =>
        (List.range accounts.length).map (fun a => (c, a)))).map
          (cleanEntry behavior companies accounts)
      succ := 0 + (List.range c0).length * accounts.length, failed := 0,
      count := 0 + (List.range c0).length * accounts.length }
    hcleanA hkeysA
  have hcnt : (0 + (List.range c0).length * accounts.length +
      (List.range a0).length) + 1 < companies.length * accounts.length := by
    simp only [List.length_range, Nat.zero_add]
    omega
  have hacc : runAccountsFrom behavior (companies.length * accounts.length)
      companies accounts c0 (List.range accounts.length)
      { results := ((List.range c0).flatMap (fun c =>
          (List.range accounts.length).map (fun a => (c, a)))).map
            (cleanEntry behavior companies accounts)
        succ := 0 + (List.range c0).length * accounts.length, failed := 0,
        count := 0 + (List.range c0).length * accounts.length } =
      ({ results := _mark_remaining_combinations_as_failed
            (dictInsert ((((List.range c0).flatMap (fun c =>
              (List.range accounts.length).map (fun a => (c, a)))).map
                (cleanEntry behavior companies accounts)) ++
              (List.range a0).map (fun a => cleanEntry behavior companies accounts (c0, a)))
              (keyAt companies accounts (c0, a0))
              (Entry.result (recordCombo (behavior c0 a0).report.1
                (behavior c0 a0).report.2 (companies.getD c0 "") (accounts.getD a0 "")
                (safeCombinationCode (companies.getD c0 "") (accounts.getD a0 "")))))
            companies accounts
            (if accounts.length ≤ a0 + 1 then c0 + 1 else c0)
            (if accounts.length ≤ a0 + 1 then 0 else a0 + 1)
            "Error de navegación - proceso interrumpido"
         succ := (0 + (List.range c0).length * accounts.length +
            (List.range a0).length) +
            (if (recordCombo (behavior c0 a0).report.1 (behavior c0 a0).report.2
              (companies.getD c0 "") (accounts.getD a0 "")
              (safeCombinationCode (companies.getD c0 "") (accounts.getD a0 ""))).success
              then 1 else 0)
         failed := ((0 : Nat) +
            (if (recordCombo (behavior c0 a0).report.1 (behavior c0 a0).report.2
              (companies.getD c0 "") (accounts.getD a0 "")
              (safeCombinationCode (companies.getD c0 "") (accounts.getD a0 ""))).success
              then 0 else 1)) +
            (companies.length * accounts.length -
              ((0 + (List.range c0).length * accounts.length +
                (List.range a0).length) + 1))
         count := (0 + (List.range c0).length * accounts.length +
            (List.range a0).length) + 1 }, LoopFlow.brk) := by
    nth_rewrite 1 [hnsplit]
    rw [haccPre, drop_range_cons ha0]
    simp only [runAccountsFrom]
    rw [processCombo_navfail (behavior c0 a0) (companies.length * accounts.length)
      companies accounts c0 a0 _ hcfg hraise hmayor hnav hcnt]
  have hrunFinal : runCompanies behavior (companies.length * accounts.length)
      companies accounts (List.range companies.length)
      { results := [], succ := 0, failed := 0, count := 0 } =
      { results := _mark_remaining_combinations_as_failed
          (dictInsert ((((List.range c0).flatMap (fun c =>
            (List.range accounts.length).map (fun a => (c, a)))).map
              (cleanEntry behavior companies accounts)) ++
            (List.range a0).map (fun a => cleanEntry behavior companies accounts (c0, a)))
            (keyAt companies accounts (c0, a0))
            (Entry.result (recordCombo (behavior c0 a0).report.1
              (behavior c0 a0).report.2 (companies.getD c0 "") (accounts.getD a0 "")
              (safeCombinationCode (companies.getD c0 "") (accounts.getD a0 "")))))
          companies accounts
          (if accounts.length ≤ a0 + 1 then c0 + 1 else c0)
          (if accounts.length ≤ a0 + 1 then 0 else a0 + 1)
          "Error de navegación - proceso interrumpido"
        succ := (0 + (List.range c0).length * accounts.length +
          (List.range a0).length) +
          (if (recordCombo (behavior c0 a0).report.1 (behavior c0 a0).report.2
            (companies.getD c0 "") (accounts.getD a0 "")
            (safeCombinationCode (companies.getD c0 "") (accounts.getD a0 ""))).success
            then 1 else 0)
        failed := ((0 : Nat) +
          (if (recordCombo (behavior c0 a0).report.1 (behavior c0 a0).report.2
            (companies.getD c0 "") (accounts.getD a0 "")
            (safeCombinationCode (companies.getD c0 "") (accounts.getD a0 ""))).success
            then 0 else 1)) +
          (companies.length * accounts.length -
            ((0 + (List.range c0).length * accounts.length +
              (List.range a0).length) + 1))
        count := (0 + (List.range c0).length * accounts.length +
          (List.range a0).length) + 1 } := by
    rw [hm, hpre2, drop_range_cons hc0]
    simp only [runCompanies]
    rw [hacc]
  have hQfst : ((List.range a0).map (fun a =>
      cleanEntry behavior companies accounts (c0, a))).map Prod.fst =
      (List.range a0).map (fun a => keyAt companies accounts (c0, a)) := by
    rw [List.map_map]
    rfl
  have hT1map : (((List.range accounts.length).drop (a0 + 1)).map
      (fun a => (c0, a))).map (keyAt companies accounts) =
      ((List.range accounts.length).drop (a0 + 1)).map
        (fun a => keyAt companies accounts (c0, a)) := by
    rw [List.map_map]
    rfl
  have hT2map : (((List.range companies.length).drop (c0 + 1)).flatMap
      (fun c => (List.range accounts.length).map (fun a => (c, a)))).map
        (keyAt companies accounts) =
      ((List.range companies.length).drop (c0 + 1)).flatMap
        (fun c => (List.range accounts.length).map
          (fun a => keyAt companies accounts (c, a))) := by
    rw [List.map_flatMap]
    apply flatMap_congr_mem
    intro c hc
    rw [List.map_map]
    rfl
  have hnd2 : (((List.range a0).map (fun a => keyAt companies accounts (c0, a))) ++
      (keyAt companies accounts (c0, a0) ::
        ((((List.range accounts.length).drop (a0 + 1)).map
          (fun a => keyAt companies accounts (c0, a))) ++
          (((List.range companies.length).drop (c0 + 1)).flatMap
            (fun c => (List.range accounts.length).map
              (fun a => keyAt companies accounts (c, a))))))).Nodup :=
    (List.nodup_append.mp hkeysD).2.1
  have hdisjP := (List.nodup_append.mp hkeysD).2.2
  have hk0nPK : keyAt companies accounts (c0, a0) ∉
      (List.range c0).flatMap (fun c => (List.range accounts.length).map
        (fun a => keyAt companies accounts (c, a))) :=
    fun h => hdisjP h (by simp)
  have hmid := List.nodup_middle.mp hnd2
  have hk0nQT := (List.nodup_cons.mp hmid).1
  have hk0nQK : keyAt companies accounts (c0, a0) ∉
      (List.range a0).map (fun a => keyAt companies accounts (c0, a)) :=
    fun h => hk0nQT (List.mem_append_left _ h)
  have hTtail : ((((List.range accounts.length).drop (a0 + 1)).map
      (fun a => keyAt companies accounts (c0, a))) ++
      (((List.range companies.length).drop (c0 + 1)).flatMap
        (fun c => (List.range accounts.length).map
          (fun a => keyAt companies accounts (c, a))))).Nodup :=
    (List.nodup_append.mp (List.nodup_cons.mp hmid).2).2.1
  have hbig : ((((List.range c0).flatMap (fun c =>
      (List.range accounts.length).map (fun a => keyAt companies accounts (c, a)))) ++
      (((List.range a0).map (fun a => keyAt companies accounts (c0, a))) ++
        [keyAt companies accounts (c0, a0)])) ++
      ((((List.range accounts.length).drop (a0 + 1)).map
        (fun a => keyAt companies accounts (c0, a))) ++
        (((List.range companies.length).drop (c0 + 1)).flatMap
          (fun c => (List.range accounts.length).map
            (fun a => keyAt companies accounts (c, a)))))).Nodup := by
    simpa [List.append_assoc] using hkeysD
  have hdisjBig := (List.nodup_append.mp hbig).2.2
  have hfresh0 : ∀ p ∈ (((List.range c0).flatMap (fun c =>
      (List.range accounts.length).map (fun a => (c, a)))).map
        (cleanEntry behavior companies accounts)) ++
      (List.range a0).map (fun a => cleanEntry behavior companies accounts (c0, a)),
      p.1 ≠ keyAt companies accounts (c0, a0) := by
    intro p hp he
    have hmem : p.1 ∈ ((((List.range c0).flatMap (fun c =>
        (List.range accounts.length).map (fun a => (c, a)))).map
          (cleanEntry behavior companies accounts)) ++
        (List.range a0).map (fun a => cleanEntry behavior companies accounts (c0, a))).map
          Prod.fst := List.mem_map_of_mem _ hp
    rw [List.map_append, hPfst, hQfst, he] at hmem
    rcases List.mem_append.mp hmem with h | h
    · exact hk0nPK h
    · exact hk0nQK h
  have hdict : dictInsert ((((List.range c0).flatMap (fun c =>
      (List.range accounts.length).map (fun a => (c, a)))).map
        (cleanEntry behavior companies accounts)) ++
      (List.range a0).map (fun a => cleanEntry behavior companies accounts (c0, a)))
      (keyAt companies accounts (c0, a0))
      (Entry.result (recordCombo (behavior c0 a0).report.1 (behavior c0 a0).report.2
        (companies.getD c0 "") (accounts.getD a0 "")
        (safeCombinationCode (companies.getD c0 "") (accounts.getD a0 "")))) =
      ((((List.range c0).flatMap (fun c =>
        (List.range accounts.length).map (fun a => (c, a)))).map
          (cleanEntry behavior companies accounts)) ++
        (List.range a0).map (fun a => cleanEntry behavior companies accounts (c0, a))) ++
        [(keyAt companies accounts (c0, a0),
          Entry.result (recordCombo (behavior c0 a0).report.1 (behavior c0 a0).report.2
            (companies.getD c0 "") (accounts.getD a0 "")
            (safeCombinationCode (companies.getD c0 "") (accounts.getD a0 ""))))] :=
    dictInsert_eq_append _ _ _ hfresh0
  have hTK_nodup : ((remainingPairs companies.length accounts.length
      (if accounts.length ≤ a0 + 1 then c0 + 1 else c0)
      (if accounts.length ≤ a0 + 1 then 0 else a0 + 1)).map
        (keyAt companies accounts)).Nodup := by
    rw [remainingPairs_after hc0 ha0, List.map_append, hT1map, hT2map]
    exact hTtail
  have hfreshMark : ∀ p ∈ remainingPairs companies.length accounts.length
      (if accounts.length ≤ a0 + 1 then c0 + 1 else c0)
      (if accounts.length ≤ a0 + 1 then 0 else a0 + 1),
      ∀ q ∈ ((((List.range c0).flatMap (fun c =>
        (List.range accounts.length).map (fun a => (c, a)))).map
          (cleanEntry behavior companies accounts)) ++
        (List.range a0).map (fun a => cleanEntry behavior companies accounts (c0, a))) ++
        [(keyAt companies accounts (c0, a0),
          Entry.result (recordCombo (behavior c0 a0).report.1 (behavior c0 a0).report.2
            (companies.getD c0 "") (accounts.getD a0 "")
            (safeCombinationCode (companies.getD c0 "") (accounts.getD a0 ""))))],
      q.1 ≠ keyAt companies accounts p := by
    intro p hp q hq he
    have hKp : keyAt companies accounts p ∈
        ((((List.range accounts.length).drop (a0 + 1)).map
          (fun a => keyAt companies accounts (c0, a))) ++
          (((List.range companies.length).drop (c0 + 1)).flatMap
            (fun c => (List.range accounts.length).map
              (fun a => keyAt companies accounts (c, a))))) := by
      have h1 : keyAt companies accounts p ∈ (remainingPairs companies.length
          accounts.length (if accounts.length ≤ a0 + 1 then c0 + 1 else c0)
          (if accounts.length ≤ a0 + 1 then 0 else a0 + 1)).map
            (keyAt companies accounts) := List.mem_map_of_mem _ hp
      rwa [remainingPairs_after hc0 ha0, List.map_append, hT1map, hT2map] at h1
    have hq1 : q.1 ∈ (((((List.range c0).flatMap (fun c =>
        (List.range accounts.length).map (fun a => (c, a)))).map
          (cleanEntry behavior companies accounts)) ++
        (List.range a0).map (fun a => cleanEntry behavior companies accounts (c0, a))) ++
        [(keyAt companies accounts (c0, a0),
          Entry.result (recordCombo (behavior c0 a0).report.1 (behavior c0 a0).report.2
            (companies.getD c0 "") (accounts.getD a0 "")
            (safeCombinationCode (companies.getD c0 "") (accounts.getD a0 ""))))]).map
          Prod.fst := List.mem_map_of_mem _ hq
    rw [List.map_append, List.map_append, hPfst, hQfst] at hq1
    simp only [List.map_cons, List.map_nil] at hq1
    rw [List.append_assoc] at hq1
    rw [he] at hq1
    exact hdisjBig (by simpa [List.append_assoc] using hq1) hKp
  have hmark := mark_eq_append
    (((((List.range c0).flatMap (fun c =>
      (List.range accounts.length).map (fun a => (c, a)))).map
        (cleanEntry behavior companies accounts)) ++
      (List.range a0).map (fun a => cleanEntry behavior companies accounts (c0, a))) ++
      [(keyAt companies accounts (c0, a0),
        Entry.result (recordCombo (behavior c0 a0).report.1 (behavior c0 a0).report.2
          (companies.getD c0 "") (accounts.getD a0 "")
          (safeCombinationCode (companies.getD c0 "") (accounts.getD a0 ""))))])
    companies accounts
    (if accounts.length ≤ a0 + 1 then c0 + 1 else c0)
    (if accounts.length ≤ a0 + 1 then 0 else a0 + 1)
    "Error de navegación - proceso interrumpido"
    hfreshMark hTK_nodup
  have hout : extract_multiple_reports_by_company_and_account behavior none companies
      accounts =
      dictInsert
        ((((((List.range c0).flatMap (fun c =>
          (List.range accounts.length).map (fun a => (c, a)))).map
            (cleanEntry behavior companies accounts)) ++
          (List.range a0).map (fun a => cleanEntry behavior companies accounts (c0, a))) ++
          [(keyAt companies accounts (c0, a0),
            Entry.result (recordCombo (behavior c0 a0).report.1 (behavior c0 a0).report.2
              (companies.getD c0 "") (accounts.getD a0 "")
              (safeCombinationCode (companies.getD c0 "") (accounts.getD a0 ""))))]) ++
          (remainingPairs companies.length accounts.length
            (if accounts.length ≤ a0 + 1 then c0 + 1 else c0)
            (if accounts.length ≤ a0 + 1 then 0 else a0 + 1)).map
            (fun p => (keyAt companies accounts p, Entry.result
              (_create_failed_combination_result
                "Error de navegación - proceso interrumpido"
                (companies.getD p.1 "") (accounts.getD p.2 "")
                (safeCombinationCode (companies.getD p.1 "") (accounts.getD p.2 ""))))))
        "_summary"
        (Entry.summary
          { total_combinations := companies.length * accounts.length
            total_companies := companies.length
            total_accounts := accounts.length
            successful_extractions := (0 + (List.range c0).length * accounts.length +
              (List.range a0).length) +
              (if (recordCombo (behavior c0 a0).report.1 (behavior c0 a0).report.2
                (companies.getD c0 "") (accounts.getD a0 "")
                (safeCombinationCode (companies.getD c0 "")
                  (accounts.getD a0 ""))).success then 1 else 0)
            failed_extractions := ((0 : Nat) +
              (if (recordCombo (behavior c0 a0).report.1 (behavior c0 a0).report.2
                (companies.getD c0 "") (accounts.getD a0 "")
                (safeCombinationCode (companies.getD c0 "")
                  (accounts.getD a0 ""))).success then 0 else 1)) +
              (companies.length * accounts.length -
                ((0 + (List.range c0).length * accounts.length +
                  (List.range a0).length) + 1))
            success_rate := if 0 < companies.length * accounts.length then
              ((((0 + (List.range c0).length * accounts.length +
                (List.range a0).length) +
                (if (recordCombo (behavior c0 a0).report.1 (behavior c0 a0).report.2
                  (companies.getD c0 "") (accounts.getD a0 "")
                  (safeCombinationCode (companies.getD c0 "")
                    (accounts.getD a0 ""))).success then 1 else 0) : Nat) : ℚ) /
                ((companies.length * accounts.length : Nat) : ℚ)) * 100 else 0
            error := none }) := by
    simp only [extract_multiple_reports_by_company_and_account, hrunFinal]
    rw [hdict, hmark]
  refine ⟨?_, ?_⟩
  · intro c a hc ha hlex
    rw [hout]
    have hKin : keyAt companies accounts (c, a) ∈ allComboKeys companies accounts :=
      List.mem_map_of_mem _ (mem_allPairs.mpr ⟨hc, ha⟩)
    have hKne : keyAt companies accounts (c, a) ≠ "_summary" :=
      fun he => hsum (he ▸ hKin)
    rw [lookup_dictInsert_ne _ _ _ _ hKne]
    have hmemRem : (c, a) ∈ remainingPairs companies.length accounts.length
        (if accounts.length ≤ a0 + 1 then c0 + 1 else c0)
        (if accounts.length ≤ a0 + 1 then 0 else a0 + 1) := by
      rw [mem_remainingPairs]
      refine ⟨hc, ha, ?_⟩
      by_cases hroll : accounts.length ≤ a0 + 1
      · rw [if_pos hroll, if_pos hroll]
        rcases hlex with h | ⟨he, h⟩
        · omega
        · omega
      · rw [if_neg hroll, if_neg hroll]
        rcases hlex with h | ⟨he, h⟩
        · omega
        · omega
    have hKinT : keyAt companies accounts (c, a) ∈
        ((((List.range accounts.length).drop (a0 + 1)).map
          (fun a => keyAt companies accounts (c0, a))) ++
          (((List.range companies.length).drop (c0 + 1)).flatMap
            (fun c => (List.range accounts.length).map
              (fun a => keyAt companies accounts (c, a))))) := by
      have h1 : keyAt companies accounts (c, a) ∈ (remainingPairs companies.length
          accounts.length (if accounts.length ≤ a0 + 1 then c0 + 1 else c0)
          (if accounts.length ≤ a0 + 1 then 0 else a0 + 1)).map
            (keyAt companies accounts) := List.mem_map_of_mem _ hmemRem
      rwa [remainingPairs_after hc0 ha0, List.map_append, hT1map, hT2map] at h1
    have hfreshLeft : ∀ q ∈ ((((List.range c0).flatMap (fun c =>
        (List.range accounts.length).map (fun a => (c, a)))).map
          (cleanEntry behavior companies accounts)) ++
        (List.range a0).map (fun a => cleanEntry behavior companies accounts (c0, a))) ++
        [(keyAt companies accounts (c0, a0),
          Entry.result (recordCombo (behavior c0 a0).report.1 (behavior c0 a0).report.2
            (companies.getD c0 "") (accounts.getD a0 "")
            (safeCombinationCode (companies.getD c0 "") (accounts.getD a0 ""))))],
        q.1 ≠ keyAt companies accounts (c, a) := by
      intro q hq he
      have hq1 : q.1 ∈ (((((List.range c0).flatMap (fun c =>
          (List.range accounts.length).map (fun a => (c, a)))).map
            (cleanEntry behavior companies accounts)) ++
          (List.range a0).map (fun a => cleanEntry behavior companies accounts (c0, a))) ++
          [(keyAt companies accounts (c0, a0),
            Entry.result (recordCombo (behavior c0 a0).report.1
              (behavior c0 a0).report.2 (companies.getD c0 "") (accounts.getD a0 "")
              (safeCombinationCode (companies.getD c0 "")
                (accounts.getD a0 ""))))]).map Prod.fst := List.mem_map_of_mem _ hq
      rw [List.map_append, List.map_append, hPfst, hQfst] at hq1
      simp only [List.map_cons, List.map_nil] at hq1
      rw [List.append_assoc, he] at hq1
      exact hdisjBig (by simpa [List.append_assoc] using hq1) hKinT
    rw [lookup_append_of_fresh _ _ _ hfreshLeft]
    exact lookup_map_pairs _ (keyAt companies accounts)
      (fun p => Entry.result (_create_failed_combination_result
        "Error de navegación - proceso interrumpido"
        (companies.getD p.1 "") (accounts.getD p.2 "")
        (safeCombinationCode (companies.getD p.1 "") (accounts.getD p.2 ""))))
      (c, a) hmemRem hTK_nodup
  · refine ⟨_, by rw [hout]; exact lookup_dictInsert _ _ _, ?_, ?_⟩
    · simp only [recordCombo_success_eq, List.length_range, Nat.zero_add]
    · simp only [recordCombo_success_eq, List.length_range, Nat.zero_add]

theorem c2_navigation_abort_bulk_marking_witness :
    ((extract_multiple_reports_by_company_and_account navFailBehavior none
      ["c1", "c2"] ["a1", "a2"]).lookup (keyAt ["c1", "c2"] ["a1", "a2"] (1, 1)) =
      some (Entry.result (_create_failed_combination_result
        "Error de navegación - proceso interrumpido"
        ((["c1", "c2"] : List String).getD 1 "")
        ((["a1", "a2"] : List String).getD 1 "")
        (safeCombinationCode ((["c1", "c2"] : List String).getD 1 "")
          ((["a1", "a2"] : List String).getD 1 ""))))) ∧
    (∃ s : Summary,
      (extract_multiple_reports_by_company_and_account navFailBehavior none
        ["c1", "c2"] ["a1", "a2"]).lookup "_summary" = some (Entry.summary s) ∧
      s.failed_extractions =
        (if extractionSucceeded (navFailBehavior 0 0).report.1
          (navFailBehavior 0 0).report.2 then 0 else 1) +
        ((["c1", "c2"] : List String).length * (["a1", "a2"] : List String).length -
          (0 * (["a1", "a2"] : List String).length + 0 + 1)) ∧
      s.successful_extractions = 0 * (["a1", "a2"] : List String).length + 0 +
        (if extractionSucceeded (navFailBehavior 0 0).report.1
          (navFailBehavior 0 0).report.2 then 1 else 0)) := by
  have h := c2_navigation_abort_bulk_marking navFailBehavior ["c1", "c2"]
    ["a1", "a2"] 0 0 (by decide) (by decide)
    (fun c a hh => absurd hh (by omega)) (by decide) (by decide) (by decide)
    (by decide) (by decide) (by decide) (by decide)
  exact ⟨h.1 1 1 (by decide) (by decide) (Or.inl (by decide)), h.2⟩
